import Mathlib

/-!
Shallow embedding of the process-execution and async-job core of the
`mcp_server` repository, covering:

* `run_command` from `sub-agent-router-mcp-server-rs/src/runner.rs`
* `execute_shell` from `shell-mcp-server-rs/src/shell.rs`
* the `JobStore` operations from `sub-agent-router-mcp-server-rs/src/job_store.rs`
* the async-job orchestration and cancellation handlers from
  `sub-agent-router-mcp-server-rs/src/server.rs`

Modelling conventions:

* Captured output is kept as byte lists (`Bytes`).  `String::from_utf8_lossy`
  is the identity on valid UTF-8 input, so appending the decoded slice is
  modelled as appending the byte slice itself.
* The supervisor loops are driven by a prerecorded trace of per-iteration
  observations (`Tick`): the `try_wait` poll result, the value read from the
  cancellation flag, and the outcome of the 100 ms channel receive.  `now` is
  the monotonic-clock reading of the iteration, in milliseconds since process
  start (`start_time` / the initial `last_activity`).
* Signals sent to the child (`SIGTERM` via `terminate_child`, `SIGKILL` via
  `force_kill`) are recorded in an action log, tagged with the call site and
  the time of the iteration that sent them.
* The loops return the unconsumed suffix of the trace together with the final
  state, so that statements can speak about exactly the processed prefix.
* SQLite job storage is modelled as an in-memory list of rows; the POSIX
  (non-Windows) code paths are the ones modelled.
-/

namespace McpServer

/-- Raw output bytes, as read from a subprocess pipe. -/
abbrev Bytes := List Nat

/-- `std::process::ExitStatus`: exit code and terminating signal are not both
guaranteed present. -/
structure ExitStatus where
  code : Option Int
  signal : Option String
deriving Repr, DecidableEq

/-- Stream identity tag (`StreamKind` in both runner.rs and shell.rs). -/
inductive StreamKind
  | stdout
  | stderr
deriving Repr, DecidableEq

/-- `StreamEvent` from runner.rs / shell.rs: a data chunk tagged with its
stream, or the terminal done marker a reader emits on EOF/error. -/
inductive StreamEvent
  | data : StreamKind → Bytes → StreamEvent
  | done : StreamKind → StreamEvent
deriving Repr, DecidableEq

/-- Outcome of one `rx.recv_timeout(100ms)` call in the control loop. -/
inductive RecvOutcome
  | event : StreamEvent → RecvOutcome
  | timeout : RecvOutcome
  | disconnected : RecvOutcome
deriving Repr, DecidableEq

/-- One iteration of the control loop, as observed from the environment:
the clock, the non-blocking exit poll, the cancellation flag value, and the
channel receive outcome. -/
structure Tick where
  now : Nat
  pollExit : Option ExitStatus
  cancelFlag : Bool
  recv : RecvOutcome
deriving Repr, DecidableEq

/-- A signal sent to the child process, tagged by the sending call site and
the time of the iteration that sent it. -/
inductive TermAction
  | sigtermTimeout : Nat → TermAction
  | sigtermCancel : Nat → TermAction
  | sigkill : Nat → TermAction
deriving Repr, DecidableEq

/-! ## runner.rs: `run_command` -/

/-- `RunResult` from runner.rs. -/
structure RunResult where
  stdout : Bytes
  stderr : Bytes
  exit_code : Option Int
  signal : Option String
  started_at : String
  finished_at : String
  duration_ms : Int
  stdout_truncated : Bool
  stderr_truncated : Bool
  error : Option String
  timed_out : Bool
deriving Repr, DecidableEq

/-- Mutable state of the `run_command` control loop (runner.rs lines 84-93),
plus the log of signals sent. -/
structure RunState where
  stdoutText : Bytes
  stderrText : Bytes
  stdoutTruncated : Bool
  stderrTruncated : Bool
  stdoutDone : Bool
  stderrDone : Bool
  exitStatus : Option ExitStatus
  timedOut : Bool
  cancelled : Bool
  killDeadline : Option Nat
  actions : List TermAction
deriving Repr, DecidableEq

/-- Initial loop state of `run_command`. -/
def initRunState : RunState :=
  { stdoutText := [], stderrText := [], stdoutTruncated := false,
    stderrTruncated := false, stdoutDone := false, stderrDone := false,
    exitStatus := none, timedOut := false, cancelled := false,
    killDeadline := none, actions := [] }

/-- runner.rs lines 96-100: non-blocking exit poll, recorded only while no
exit status is known. -/
def pollStep (st : RunState) (tick : Tick) : RunState :=
  match st.exitStatus with
  | none => { st with exitStatus := tick.pollExit }
  | some _ => st

/-- runner.rs lines 106-110: the timeout check.  The elapsed time is measured
from process start (`start_time.elapsed()`), and on expiry the child receives
SIGTERM and a 2-second force-kill deadline is armed. -/
def runTimeoutStep (timeout_ms : Int) (st : RunState) (tick : Tick) : RunState :=
  if timeout_ms > 0 ∧ st.timedOut = false ∧ (tick.now : Int) ≥ timeout_ms then
    { st with timedOut := true,
              actions := st.actions ++ [TermAction.sigtermTimeout tick.now],
              killDeadline := some (tick.now + 2000) }
  else st

/-- runner.rs lines 112-118: the cancellation check.  When a flag is present
and reads true for the first time, the child receives SIGTERM and the
2-second force-kill deadline is (re)armed. -/
def runCancelStep (hasCancelFlag : Bool) (st : RunState) (tick : Tick) : RunState :=
  if hasCancelFlag = true ∧ tick.cancelFlag = true ∧ st.cancelled = false then
    { st with cancelled := true,
              actions := st.actions ++ [TermAction.sigtermCancel tick.now],
              killDeadline := some (tick.now + 2000) }
  else st

/-- runner.rs lines 120-125: when the armed deadline has expired the child
receives SIGKILL and the deadline is cleared. -/
def runKillStep (st : RunState) (tick : Tick) : RunState :=
  match st.killDeadline with
  | some d =>
      if tick.now ≥ d then
        { st with actions := st.actions ++ [TermAction.sigkill tick.now],
                  killDeadline := none }
      else st
  | none => st

/-- runner.rs lines 130-151: per-stream output accumulation with truncation
accounting.  Once truncated, chunks are dropped; otherwise at most the
leading bytes that fit below the ceiling are appended. -/
def appendChunk (max_output_bytes : Nat) (text : Bytes) (truncated : Bool)
    (chunk : Bytes) : Bytes × Bool :=
  if truncated = true then (text, truncated)
  else
    let remaining := max_output_bytes - text.length
    if chunk.length > remaining then (text ++ chunk.take remaining, true)
    else (text ++ chunk, truncated)

/-- runner.rs lines 128-157: processing of one received stream event. -/
def runEventStep (max_output_bytes : Nat) (st : RunState) (e : StreamEvent) :
    RunState :=
  match e with
  | StreamEvent.data StreamKind.stdout chunk =>
      let p := appendChunk max_output_bytes st.stdoutText st.stdoutTruncated chunk
      { st with stdoutText := p.1, stdoutTruncated := p.2 }
  | StreamEvent.data StreamKind.stderr chunk =>
      let p := appendChunk max_output_bytes st.stderrText st.stderrTruncated chunk
      { st with stderrText := p.1, stderrTruncated := p.2 }
  | StreamEvent.done StreamKind.stdout => { st with stdoutDone := true }
  | StreamEvent.done StreamKind.stderr => { st with stderrDone := true }

/-- The `run_command` control loop (runner.rs lines 95-161), driven by a
trace of iteration observations.  Returns the state at loop exit together
with the unconsumed suffix of the trace: the `break` on
`stdout_done && stderr_done && exit_status.is_some()` happens before the
channel receive, so the breaking iteration's tick is returned unconsumed. -/
def runLoop (timeout_ms : Int) (max_output_bytes : Nat) (hasCancelFlag : Bool) :
    RunState → List Tick → RunState × List Tick
  | st, [] => (st, [])
  | st, tick :: rest =>
    let st1 := pollStep st tick
    if st1.stdoutDone = true ∧ st1.stderrDone = true ∧ st1.exitStatus.isSome = true then
      (st1, tick :: rest)
    else
      let st2 := runTimeoutStep timeout_ms st1 tick
      let st3 := runCancelStep hasCancelFlag st2 tick
      let st4 := runKillStep st3 tick
      match tick.recv with
      | RecvOutcome.event e =>
          runLoop timeout_ms max_output_bytes hasCancelFlag
            (runEventStep max_output_bytes st4 e) rest
      | RecvOutcome.timeout =>
          runLoop timeout_ms max_output_bytes hasCancelFlag st4 rest
      | RecvOutcome.disconnected => (st4, rest)

/-- The `"(empty)"` placeholder substituted for empty captured text
(runner.rs lines 169-174, shell.rs lines 193-201), as UTF-8 bytes. -/
def emptyPlaceholder : Bytes := [40, 101, 109, 112, 116, 121, 41]

/-- Environment observations for one `run_command` invocation: a possible
setup failure (spawn / stdin write / pipe capture), the loop trace, the
result of the final blocking `child.wait()` (used when the loop exit poll
never succeeded), and the wall-clock readings taken for the result. -/
structure RunnerTrace where
  setupError : Option String
  ticks : List Tick
  finalWait : ExitStatus
  startedAt : String
  finishedAt : String
  durationMs : Int
deriving Repr, DecidableEq

/-- `run_command` from runner.rs.  `env`, `cwd` and `input` configure the
spawned child and influence execution only through the observed trace. -/
def run_command (exec : List String) (env : List (String × String))
    (cwd : Option String) (timeout_ms : Int) (max_output_bytes : Nat)
    (input : Option String) (hasCancelFlag : Bool) (trace : RunnerTrace) :
    Except String RunResult :=
  if exec.isEmpty then Except.error "Command is required"
  else
    match trace.setupError with
    | some err => Except.error err
    | none =>
      let st := (runLoop timeout_ms max_output_bytes hasCancelFlag
        initRunState trace.ticks).1
      let status := st.exitStatus.getD trace.finalWait
      let stdoutText := if st.stdoutText = [] then emptyPlaceholder else st.stdoutText
      let stderrText := if st.stderrText = [] then emptyPlaceholder else st.stderrText
      let error := if st.cancelled = true then some "cancelled" else none
      Except.ok
        { stdout := stdoutText, stderr := stderrText,
          exit_code := status.code, signal := status.signal,
          started_at := trace.startedAt, finished_at := trace.finishedAt,
          duration_ms := trace.durationMs,
          stdout_truncated := st.stdoutTruncated,
          stderr_truncated := st.stderrTruncated,
          error := error, timed_out := st.timedOut }

/-! ## shell.rs: `execute_shell` -/

/-- `ShellResult` from shell.rs. -/
structure ShellResult where
  output : Bytes
  stdout : Bytes
  stderr : Bytes
  error : String
  exit_code : Option Int
  signal : Option String
  pid : Option Nat
  background_pids : List Nat
  timed_out : Bool
  truncated : Bool
deriving Repr, DecidableEq

/-- Mutable state of the `execute_shell` control loop (shell.rs lines
96-108), plus the log of signals sent. -/
structure ShellState where
  output : Bytes
  stdoutText : Bytes
  stderrText : Bytes
  truncated : Bool
  totalBytes : Nat
  lastStream : Option StreamKind
  stdoutDone : Bool
  stderrDone : Bool
  exitStatus : Option ExitStatus
  timedOut : Bool
  killDeadline : Option Nat
  lastActivity : Nat
  actions : List TermAction
deriving Repr, DecidableEq

/-- Initial loop state of `execute_shell`; `last_activity` starts at process
start (time 0). -/
def initShellState : ShellState :=
  { output := [], stdoutText := [], stderrText := [], truncated := false,
    totalBytes := 0, lastStream := none, stdoutDone := false,
    stderrDone := false, exitStatus := none, timedOut := false,
    killDeadline := none, lastActivity := 0, actions := [] }

/-- shell.rs lines 111-115: non-blocking exit poll. -/
def shellPollStep (st : ShellState) (tick : Tick) : ShellState :=
  match st.exitStatus with
  | none => { st with exitStatus := tick.pollExit }
  | some _ => st

/-- shell.rs lines 121-128: the inactivity-timeout check.  The elapsed time
is measured from `last_activity` (reset on every data event); on expiry the
child receives SIGTERM and a 2-second force-kill deadline is armed. -/
def shellTimeoutStep (timeout_ms : Int) (st : ShellState) (tick : Tick) :
    ShellState :=
  if timeout_ms > 0 then
    if st.timedOut = false ∧ ((tick.now - st.lastActivity : Nat) : Int) ≥ timeout_ms then
      { st with timedOut := true,
                actions := st.actions ++ [TermAction.sigtermTimeout tick.now],
                killDeadline := some (tick.now + 2000) }
    else st
  else st

/-- shell.rs lines 130-135: force kill after an expired deadline. -/
def shellKillStep (st : ShellState) (tick : Tick) : ShellState :=
  match st.killDeadline with
  | some d =>
      if tick.now ≥ d then
        { st with actions := st.actions ++ [TermAction.sigkill tick.now],
                  killDeadline := none }
      else st
  | none => st

/-- shell.rs lines 139-163: one data event.  `last_activity` is reset first;
then, unless already truncated, the leading bytes that fit under the combined
ceiling are appended to the combined output and to the per-stream text. -/
def shellDataStep (max_output_bytes : Nat) (st : ShellState) (nowMs : Nat)
    (kind : StreamKind) (chunk : Bytes) : ShellState :=
  let st := { st with lastActivity := nowMs }
  if st.truncated = true then st
  else
    let remaining := max_output_bytes - st.totalBytes
    if remaining = 0 then { st with truncated := true }
    else
      let truncatedNew := decide (chunk.length > remaining)
      let slice := if chunk.length > remaining then chunk.take remaining else chunk
      match kind with
      | StreamKind.stdout =>
          { st with truncated := truncatedNew,
                    output := st.output ++ slice,
                    stdoutText := st.stdoutText ++ slice,
                    totalBytes := st.totalBytes + slice.length,
                    lastStream := some StreamKind.stdout }
      | StreamKind.stderr =>
          { st with truncated := truncatedNew,
                    output := st.output ++ slice,
                    stderrText := st.stderrText ++ slice,
                    totalBytes := st.totalBytes + slice.length,
                    lastStream := some StreamKind.stderr }

/-- shell.rs lines 138-168: processing of one received stream event. -/
def shellEventStep (max_output_bytes : Nat) (st : ShellState) (nowMs : Nat)
    (e : StreamEvent) : ShellState :=
  match e with
  | StreamEvent.data kind chunk => shellDataStep max_output_bytes st nowMs kind chunk
  | StreamEvent.done StreamKind.stdout => { st with stdoutDone := true }
  | StreamEvent.done StreamKind.stderr => { st with stderrDone := true }

/-- The `execute_shell` control loop (shell.rs lines 110-172). -/
def shellLoop (timeout_ms : Int) (max_output_bytes : Nat) :
    ShellState → List Tick → ShellState × List Tick
  | st, [] => (st, [])
  | st, tick :: rest =>
    let st1 := shellPollStep st tick
    if st1.stdoutDone = true ∧ st1.stderrDone = true ∧ st1.exitStatus.isSome = true then
      (st1, tick :: rest)
    else
      let st2 := shellTimeoutStep timeout_ms st1 tick
      let st3 := shellKillStep st2 tick
      match tick.recv with
      | RecvOutcome.event e =>
          shellLoop timeout_ms max_output_bytes
            (shellEventStep max_output_bytes st3 tick.now e) rest
      | RecvOutcome.timeout => shellLoop timeout_ms max_output_bytes st3 rest
      | RecvOutcome.disconnected => (st3, rest)

/-- The `"\n[output truncated]"` marker (shell.rs lines 185-191), as UTF-8
bytes. -/
def truncMarker : Bytes :=
  [10, 91, 111, 117, 116, 112, 117, 116, 32, 116, 114, 117, 110, 99, 97,
   116, 101, 100, 93]

/-- The `"(none)"` placeholder for an empty error string (shell.rs line 203). -/
def nonePlaceholder : String := "(none)"

/-- Environment observations for one `execute_shell` invocation.  `pid` is
the spawned child's id; `pgrepPids` are the process ids parsed from the
temp file written by `pgrep -g 0`. -/
structure ShellTrace where
  spawnError : Option String
  pid : Nat
  ticks : List Tick
  finalWait : ExitStatus
  pgrepPids : List Nat
deriving Repr, DecidableEq

/-- `execute_shell` from shell.rs, on the POSIX path: the command text is
wrapped for `bash -c` with exit-code-preserving bookkeeping and handed to the
supervisor loop; the wrapping itself only configures the child and influences
execution through the observed trace. -/
def execute_shell (command : String) (cwd : String) (timeout_ms : Int)
    (max_output_bytes : Nat) (trace : ShellTrace) : Except String ShellResult :=
  match trace.spawnError with
  | some err => Except.error err
  | none =>
    let st := (shellLoop timeout_ms max_output_bytes initShellState trace.ticks).1
    let status := st.exitStatus.getD trace.finalWait
    let errorText :=
      if st.timedOut = true then
        "Command was cancelled after " ++ toString timeout_ms ++ "ms of inactivity."
      else nonePlaceholder
    let output1 := if st.truncated = true then st.output ++ truncMarker else st.output
    let stdout1 :=
      if st.truncated = true ∧ st.lastStream ≠ some StreamKind.stderr then
        st.stdoutText ++ truncMarker
      else st.stdoutText
    let stderr1 :=
      if st.truncated = true ∧ st.lastStream = some StreamKind.stderr then
        st.stderrText ++ truncMarker
      else st.stderrText
    let output2 := if output1 = [] then emptyPlaceholder else output1
    let stdout2 := if stdout1 = [] then emptyPlaceholder else stdout1
    let stderr2 := if stderr1 = [] then emptyPlaceholder else stderr1
    let background_pids := trace.pgrepPids.filter (fun q => q ≠ trace.pid)
    Except.ok
      { output := output2, stdout := stdout2, stderr := stderr2,
        error := errorText, exit_code := status.code, signal := status.signal,
        pid := some trace.pid, background_pids := background_pids,
        timed_out := st.timedOut, truncated := st.truncated }

/-! ## job_store.rs: `JobStore` -/

/-- `JobRecord` from types.rs, one row of the `subagent_jobs` table. -/
structure JobRecord where
  id : String
  status : String
  task : String
  agent_id : Option String
  command_id : Option String
  payload_json : Option String
  result_json : Option String
  error : Option String
  created_at : String
  updated_at : String
  session_id : String
  run_id : String
deriving Repr, DecidableEq

/-- `JobEvent` from types.rs, one row of the `subagent_events` table. -/
structure JobEvent where
  id : String
  job_id : String
  type : String
  payload_json : Option String
  created_at : String
  session_id : String
  run_id : String
deriving Repr, DecidableEq

/-- In-memory model of the SQLite job store: the `subagent_jobs` and
`subagent_events` tables as row lists in insertion order. -/
structure StoreState where
  jobs : List JobRecord
  events : List JobEvent
deriving Repr, DecidableEq

/-- `JobStore::create_job` (job_store.rs lines 67-114): inserts a fresh
record with status `queued`; the generated id and the `Utc::now()` reading
are environment inputs. -/
def create_job (store : StoreState) (newId : String) (task : String)
    (agent_id command_id : Option String) (payload_json : Option String)
    (now session_id run_id : String) : StoreState × JobRecord :=
  let record : JobRecord :=
    { id := newId, status := "queued", task := task, agent_id := agent_id,
      command_id := command_id, payload_json := payload_json,
      result_json := none, error := none, created_at := now,
      updated_at := now, session_id := session_id, run_id := run_id }
  ({ store with jobs := store.jobs ++ [record] }, record)

/-- `JobStore::get_job` (job_store.rs lines 140-151): the first row whose id
matches, or `None`. -/
def get_job (store : StoreState) (job_id : String) : Option JobRecord :=
  store.jobs.find? (fun r => r.id == job_id)

/-- `JobStore::update_job_status` (job_store.rs lines 116-138): the SQL
`UPDATE` overwrites status/result/error/updated_at on every row whose id
matches (inserting nothing), then the record is re-read. -/
def update_job_status (store : StoreState) (job_id status : String)
    (result_json error : Option String) (now : String) :
    StoreState × Option JobRecord :=
  let store1 :=
    { store with jobs := store.jobs.map (fun r =>
        if r.id == job_id then
          { r with status := status, result_json := result_json,
                   error := error, updated_at := now }
        else r) }
  (store1, get_job store1 job_id)

/-- `JobStore::append_event` (job_store.rs lines 153-187): inserts one event
row; the generated id and timestamp are environment inputs. -/
def append_event (store : StoreState) (eventId job_id etype : String)
    (payload_json : Option String) (now session_id run_id : String) :
    StoreState × JobEvent :=
  let record : JobEvent :=
    { id := eventId, job_id := job_id, type := etype,
      payload_json := payload_json, created_at := now,
      session_id := session_id, run_id := run_id }
  ({ store with events := store.events ++ [record] }, record)

/-! ## server.rs: async-job orchestration and cancellation -/

/-- The in-memory `CancellationRegistry`
(`Arc<Mutex<HashMap<String, Arc<AtomicBool>>>>`), modelled as an association
list from job id to the flag's current value. -/
abbrev Registry := List (String × Bool)

/-- Registry lookup: the flag registered under a job id, if any. -/
def registry_find (reg : Registry) (job_id : String) : Option Bool :=
  (reg.find? (fun kv => kv.1 == job_id)).map (fun kv => kv.2)

/-- `HashMap::insert` of a fresh `AtomicBool::new(false)` under the job id
(server.rs lines 456-460). -/
def registry_insert (reg : Registry) (job_id : String) : Registry :=
  (job_id, false) :: reg.filter (fun kv => kv.1 != job_id)

/-- `HashMap::remove` of the job id (server.rs line 617). -/
def registry_remove (reg : Registry) (job_id : String) : Registry :=
  reg.filter (fun kv => kv.1 != job_id)

/-- server.rs lines 674-678: `flag.store(true)` on the registered flag, if
one exists; entries under other ids are untouched. -/
def cancel_set_flag (reg : Registry) (job_id : String) : Registry :=
  reg.map (fun kv => if kv.1 == job_id then (kv.1, true) else kv)

/-- The `cancel_sub_agent_job` handler (server.rs lines 669-684): set the
registered cancellation flag if present, then unconditionally mark the job
`cancelled` in storage (result cleared, error `"cancelled"`). -/
def cancel_sub_agent_job (reg : Registry) (store : StoreState)
    (job_id : String) (now : String) :
    Registry × StoreState × Option JobRecord :=
  let reg1 := cancel_set_flag reg job_id
  let p := update_job_status store job_id "cancelled" none (some "cancelled") now
  (reg1, p.1, p.2)

/-- server.rs lines 497-504 / 552-559: the status string derived from a
supervised run's result.  Cancellation (`error == "cancelled"`) takes
precedence; otherwise `"ok"` requires `exit_code.unwrap_or(0) == 0` and no
timeout. -/
def derive_status (result : RunResult) : String :=
  let cancelled := result.error = some "cancelled"
  if cancelled then "cancelled"
  else if result.exit_code.getD 0 = 0 ∧ result.timed_out = false then "ok"
  else "error"

/-- server.rs lines 606-612: mapping of the run status to the persisted
terminal job status. -/
def job_status_of (status : String) : String :=
  if status = "ok" then "done"
  else if status = "cancelled" then "cancelled"
  else "error"

/-- server.rs lines 485-604: the status variable of the background task —
initialised `"error"`, overwritten from `derive_status` only when
`run_command` returned `Ok`. -/
def background_status (runOutcome : Except String RunResult) : String :=
  match runOutcome with
  | Except.ok result => derive_status result
  | Except.error _ => "error"

/-- Synchronous prefix of the `start_sub_agent_async` handler (server.rs
lines 420-460): create the job (`queued`), move it to `running`, append a
`start` event and register a fresh cancellation flag, all before the job id
is returned to the caller. -/
def start_sub_agent_async_setup (store : StoreState) (reg : Registry)
    (newId task : String) (agent_id command_id : Option String)
    (payload_json startPayload : Option String)
    (eventId now session_id run_id : String) :
    StoreState × Registry × JobRecord :=
  let c := create_job store newId task agent_id command_id payload_json
    now session_id run_id
  let u := update_job_status c.1 c.2.id "running" none none now
  let a := append_event u.1 eventId c.2.id "start" startPayload now
    session_id run_id
  (a.1, registry_insert reg c.2.id, c.2)

/-- Tail of the background task of `start_sub_agent_async` (server.rs lines
606-617): derive the terminal status from the run outcome, persist it with
the JSON payload, append a `finish` event, and drop the registry entry. -/
def start_sub_agent_async_finish (store : StoreState) (reg : Registry)
    (job_id : String) (runOutcome : Except String RunResult)
    (payloadStr : String) (finishPayload : Option String)
    (eventId now session_id run_id : String) : StoreState × Registry :=
  let job_status := job_status_of (background_status runOutcome)
  let u := update_job_status store job_id job_status (some payloadStr) none now
  let a := append_event u.1 eventId job_id "finish" finishPayload now
    session_id run_id
  (a.1, registry_remove reg job_id)

/-! ## Observational measures over traces and action logs -/

/-- Whether a tick delivered a data event. -/
def isDataTick (t : Tick) : Bool :=
  match t.recv with
  | RecvOutcome.event (StreamEvent.data _ _) => true
  | _ => false

/-- Folding step for the time of the most recent data event. -/
def tickDataTime (d : Nat) (t : Tick) : Nat :=
  if isDataTick t then t.now else d

/-- Time of the most recent data event in a processed trace prefix, starting
from `d0` (process start / the initial `last_activity`). -/
def lastData (d0 : Nat) (ticks : List Tick) : Nat :=
  ticks.foldl tickDataTime d0

/-- Bytes delivered for one stream by one tick. -/
def tickStreamBytes (kind : StreamKind) (t : Tick) : Nat :=
  match t.recv with
  | RecvOutcome.event (StreamEvent.data k chunk) => if k = kind then chunk.length else 0
  | _ => 0

/-- Total stdout bytes delivered by a trace prefix. -/
def stdoutBytes (ticks : List Tick) : Nat :=
  (ticks.map (tickStreamBytes StreamKind.stdout)).sum

/-- Total stderr bytes delivered by a trace prefix. -/
def stderrBytes (ticks : List Tick) : Nat :=
  (ticks.map (tickStreamBytes StreamKind.stderr)).sum

/-- Bytes delivered for either stream by one tick. -/
def tickBytes (t : Tick) : Nat :=
  match t.recv with
  | RecvOutcome.event (StreamEvent.data _ chunk) => chunk.length
  | _ => 0

/-- Total output bytes (both streams) delivered by a trace prefix. -/
def dataBytes (ticks : List Tick) : Nat :=
  (ticks.map tickBytes).sum

/-- Number of graceful-termination requests caused by the timeout check. -/
def countTO (l : List TermAction) : Nat :=
  l.countP (fun a => match a with | TermAction.sigtermTimeout _ => true | _ => false)

/-- Number of graceful-termination requests caused by the cancellation check. -/
def countCA (l : List TermAction) : Nat :=
  l.countP (fun a => match a with | TermAction.sigtermCancel _ => true | _ => false)

/-- Number of graceful-termination requests (SIGTERM) of either cause. -/
def countTerm (l : List TermAction) : Nat :=
  l.countP (fun a => match a with | TermAction.sigkill _ => false | _ => true)

/-- Every force kill in the log happens at least 2000 ms after some graceful
termination request in the log. -/
def SigkillLate (l : List TermAction) : Prop :=
  ∀ t, TermAction.sigkill t ∈ l →
    ∃ u, u + 2000 ≤ t ∧
      (TermAction.sigtermTimeout u ∈ l ∨ TermAction.sigtermCancel u ∈ l)

/-- Invariant of the runner loop's termination escalation: each cause fires
SIGTERM at most once (and not before its flag is set), an armed deadline is
2000 ms after some logged SIGTERM, and every SIGKILL happens at least
2000 ms after a logged SIGTERM. -/
def RunTermInv (st : RunState) : Prop :=
  (st.timedOut = false → countTO st.actions = 0)
  ∧ countTO st.actions ≤ 1
  ∧ (st.cancelled = false → countCA st.actions = 0)
  ∧ countCA st.actions ≤ 1
  ∧ (∀ d, st.killDeadline = some d →
      ∃ u, d = u + 2000 ∧ (TermAction.sigtermTimeout u ∈ st.actions
        ∨ TermAction.sigtermCancel u ∈ st.actions))
  ∧ SigkillLate st.actions

/-- Invariant of the shell loop's termination escalation: SIGTERM fires at
most once (only the timeout can request it), an armed deadline is 2000 ms
after some logged SIGTERM, and every SIGKILL happens at least 2000 ms after
a logged SIGTERM. -/
def ShellTermInv (st : ShellState) : Prop :=
  (st.timedOut = false → countTO st.actions = 0)
  ∧ countTO st.actions ≤ 1
  ∧ countCA st.actions = 0
  ∧ (∀ d, st.killDeadline = some d →
      ∃ u, d = u + 2000 ∧ (TermAction.sigtermTimeout u ∈ st.actions
        ∨ TermAction.sigtermCancel u ∈ st.actions))
  ∧ SigkillLate st.actions

/-- Number of `finish` events recorded for a job id. -/
def countFinish (events : List JobEvent) (jid : String) : Nat :=
  events.countP (fun e => e.job_id == jid && e.type == "finish")

/-- Number of occurrences of `pattern` as a contiguous sublist of `text`. -/
def countOccurrences (pattern text : Bytes) : Nat :=
  (List.range (text.length + 1)).countP
    (fun i => pattern.isPrefixOf (text.drop i))

/-! ## Concrete fixtures used by counterexamples and witnesses -/

/-- A run whose child was killed by a signal: the exit poll reports no exit
code, both readers finish immediately, no timeout is configured and the
cancellation flag never reads true. -/
def sigKilledTrace : RunnerTrace :=
  { setupError := none,
    ticks := [⟨0, some ⟨none, some "9"⟩, false,
                RecvOutcome.event (StreamEvent.done StreamKind.stdout)⟩,
              ⟨0, none, false,
                RecvOutcome.event (StreamEvent.done StreamKind.stderr)⟩],
    finalWait := ⟨none, some "9"⟩,
    startedAt := "s", finishedAt := "f", durationMs := 0 }

/-- A trace with output arriving at 50 ms and a quiet channel poll at
100 ms: with a 100 ms timeout, only 50 ms of inactivity have elapsed at the
second tick. -/
def activeThenQuietTicks : List Tick :=
  [⟨50, none, false, RecvOutcome.event (StreamEvent.data StreamKind.stdout [97])⟩,
   ⟨100, none, false, RecvOutcome.timeout⟩]

/-- A trace in which the 100 ms timeout fires at 100 ms and the cancellation
flag reads true at 150 ms. -/
def timeoutThenCancelTicks : List Tick :=
  [⟨100, none, false, RecvOutcome.timeout⟩,
   ⟨150, none, true, RecvOutcome.timeout⟩]

/-- A run delivering three stdout bytes against a two-byte ceiling, then
exiting cleanly. -/
def truncatedTrace : RunnerTrace :=
  { setupError := none,
    ticks := [⟨0, none, false,
                RecvOutcome.event (StreamEvent.data StreamKind.stdout [97, 98, 99])⟩,
              ⟨0, some ⟨some 0, none⟩, false,
                RecvOutcome.event (StreamEvent.done StreamKind.stdout)⟩,
              ⟨0, none, false,
                RecvOutcome.event (StreamEvent.done StreamKind.stderr)⟩],
    finalWait := ⟨some 0, none⟩,
    startedAt := "s", finishedAt := "f", durationMs := 0 }

/-- A run producing no output whose 100 ms timeout fires at 100 ms. -/
def timedOutTrace : RunnerTrace :=
  { setupError := none,
    ticks := [⟨100, none, false, RecvOutcome.timeout⟩],
    finalWait := ⟨none, some "15"⟩,
    startedAt := "s", finishedAt := "f", durationMs := 100 }

/-- A shell execution producing no output whose 500 ms inactivity timeout
fires at 500 ms. -/
def timedOutShellTrace : ShellTrace :=
  { spawnError := none, pid := 1,
    ticks := [⟨500, none, false, RecvOutcome.timeout⟩],
    finalWait := ⟨none, some "15"⟩, pgrepPids := [] }

/-- The result `run_command` returns for `truncatedTrace` with a two-byte
ceiling: two captured bytes, the truncated flag, and no inline marker. -/
def c6ResultW : RunResult :=
  { stdout := [97, 98], stderr := emptyPlaceholder, exit_code := some 0,
    signal := none, started_at := "s", finished_at := "f", duration_ms := 0,
    stdout_truncated := true, stderr_truncated := false, error := none,
    timed_out := false }

/-- The result `execute_shell` returns for `timedOutShellTrace` with a
500 ms timeout: timed out, with the inactivity message naming 500. -/
def c7ShellResultW : ShellResult :=
  { output := emptyPlaceholder, stdout := emptyPlaceholder,
    stderr := emptyPlaceholder,
    error := "Command was cancelled after 500ms of inactivity.",
    exit_code := none, signal := some "15", pid := some 1,
    background_pids := [], timed_out := true, truncated := false }

/-- A registry holding one live cancellation flag for job `"j1"`. -/
def regW : Registry := [("j1", false)]

/-- A stored job row for `"j1"`, already in the terminal status `done`. -/
def recW : JobRecord :=
  { id := "j1", status := "done", task := "demo", agent_id := none,
    command_id := none, payload_json := none, result_json := some "{}",
    error := none, created_at := "c", updated_at := "u",
    session_id := "s", run_id := "r" }

/-- A store holding only the row for `"j1"`. -/
def storeW : StoreState := { jobs := [recW], events := [] }

/-! ## Store and registry lemmas -/

/-- The row rewrite performed by `update_job_status` preserves the id. -/
theorem update_row_id (jid status : String) (res err : Option String)
    (now : String) (r : JobRecord) :
    (if r.id == jid then
      ({ r with status := status, result_json := res, error := err,
                updated_at := now } : JobRecord)
    else r).id = r.id := by
  by_cases h : r.id == jid <;> simp [h]

/-- `find?` over the rows rewritten by an update, looking for the updated
id. -/
theorem find?_update_list (l : List JobRecord) (jid status : String)
    (res err : Option String) (now : String) :
    (l.map (fun r =>
      if r.id == jid then
        { r with status := status, result_json := res, error := err,
                 updated_at := now }
      else r)).find? (fun r => r.id == jid)
    = (l.find? (fun r => r.id == jid)).map (fun r =>
        { r with status := status, result_json := res, error := err,
                 updated_at := now }) := by
  rw [List.find?_map]
  have hp : ((fun r => r.id == jid) ∘ (fun r =>
      if r.id == jid then
        ({ r with status := status, result_json := res, error := err,
                  updated_at := now } : JobRecord)
      else r)) = fun r => r.id == jid := by
    funext r
    simp only [Function.comp]
    rw [update_row_id]
  rw [hp]
  cases hf : l.find? (fun r => r.id == jid) with
  | none => rfl
  | some a =>
    have ha : a.id = jid := by simpa using List.find?_some hf
    simp [ha]

/-- `find?` over the rows rewritten by an update, looking for a different
id. -/
theorem find?_update_list_other (l : List JobRecord) (jid other status : String)
    (res err : Option String) (now : String) (hne : other ≠ jid) :
    (l.map (fun r =>
      if r.id == jid then
        { r with status := status, result_json := res, error := err,
                 updated_at := now }
      else r)).find? (fun r => r.id == other)
    = l.find? (fun r => r.id == other) := by
  rw [List.find?_map]
  have hp : ((fun r => r.id == other) ∘ (fun r =>
      if r.id == jid then
        ({ r with status := status, result_json := res, error := err,
                  updated_at := now } : JobRecord)
      else r)) = fun r => r.id == other := by
    funext r
    simp only [Function.comp]
    rw [update_row_id]
  rw [hp]
  cases hf : l.find? (fun r => r.id == other) with
  | none => rfl
  | some a =>
    have ha : a.id = other := by simpa using List.find?_some hf
    have hj : ¬a.id = jid := by
      rw [ha]
      exact hne
    simp [hj]

/-- `update_job_status` returns the updated row, rewritten from whatever
`get_job` found before the call. -/
theorem update_job_status_snd (store : StoreState) (jid status : String)
    (res err : Option String) (now : String) :
    (update_job_status store jid status res err now).2
    = (get_job store jid).map (fun r =>
        { r with status := status, result_json := res, error := err,
                 updated_at := now }) := by
  simp only [update_job_status, get_job]
  exact find?_update_list store.jobs jid status res err now

/-- After `update_job_status`, `get_job` on the updated id returns the
rewritten row. -/
theorem get_job_update_same (store : StoreState) (jid status : String)
    (res err : Option String) (now : String) :
    get_job (update_job_status store jid status res err now).1 jid
    = (get_job store jid).map (fun r =>
        { r with status := status, result_json := res, error := err,
                 updated_at := now }) := by
  simp only [update_job_status, get_job]
  exact find?_update_list store.jobs jid status res err now

/-- After `update_job_status`, `get_job` on any other id is unchanged. -/
theorem get_job_update_other (store : StoreState) (jid other status : String)
    (res err : Option String) (now : String) (hne : other ≠ jid) :
    get_job (update_job_status store jid status res err now).1 other
    = get_job store other := by
  simp only [update_job_status, get_job]
  exact find?_update_list_other store.jobs jid other status res err now hne

/-- Setting the cancellation flag rewrites exactly the registered value. -/
theorem registry_find_set_flag (reg : Registry) (jid : String) :
    registry_find (cancel_set_flag reg jid) jid
    = (registry_find reg jid).map (fun _ => true) := by
  simp only [registry_find, cancel_set_flag]
  rw [List.find?_map]
  have hp : ((fun kv => kv.1 == jid) ∘ (fun kv =>
      if kv.1 == jid then ((kv.1, true) : String × Bool) else kv))
      = fun (kv : String × Bool) => kv.1 == jid := by
    funext kv
    simp only [Function.comp]
    by_cases h : kv.1 == jid <;> simp [h]
  rw [hp]
  cases hf : reg.find? (fun kv => kv.1 == jid) with
  | none => rfl
  | some kv =>
    have hkv : kv.1 = jid := by simpa using List.find?_some hf
    simp [hkv]

/-- With no flag registered under the id, `cancel_set_flag` is the
identity. -/
theorem cancel_set_flag_of_none (reg : Registry) (jid : String)
    (h : registry_find reg jid = none) : cancel_set_flag reg jid = reg := by
  simp only [registry_find] at h
  rw [Option.map_eq_none', List.find?_eq_none] at h
  simp only [cancel_set_flag]
  have hkv : ∀ kv ∈ reg,
      (if kv.1 == jid then ((kv.1, true) : String × Bool) else kv) = kv := by
    intro kv hmem
    have := h kv hmem
    simp only [Bool.not_eq_true] at this
    simp [this]
  rw [List.map_congr_left hkv]
  exact List.map_id reg

/-- Removing a registry entry makes lookups of that id fail. -/
theorem registry_find_remove (reg : Registry) (jid : String) :
    registry_find (registry_remove reg jid) jid = none := by
  simp only [registry_find, registry_remove]
  rw [Option.map_eq_none', List.find?_eq_none]
  intro kv hkv
  have h2 := (List.mem_filter.mp hkv).2
  simpa [bne] using h2

/-- Inserting a fresh flag makes lookups of that id yield `false`. -/
theorem registry_find_insert (reg : Registry) (jid : String) :
    registry_find (registry_insert reg jid) jid = some false := by
  simp only [registry_find, registry_insert]
  rw [List.find?_cons_of_pos _ (by simp)]
  rfl

/-! ## C1: terminal status derivation -/

/-- C1 (counterexample).  A supervised run whose child died to a signal
returns a result with no exit code, no timeout and no error; the background
task derives the terminal status `done` for it, although the result's exit
code is not 0 — so `done` does not hold exactly when the exit code is 0 and
`timed_out` is false. -/
theorem c1_counterexample :
    (run_command ["prog"] [] none 0 1000 none true sigKilledTrace).map
      (fun r => (job_status_of (derive_status r), r.exit_code, r.timed_out, r.error))
    = Except.ok ("done", (none : Option Int), false, (none : Option String))
    ∧ (none : Option Int) ≠ some 0 :=
  ⟨rfl, by decide⟩

/-- C1 (amended).  The persisted terminal status is `cancelled` exactly when
the result's error equals the cancellation marker; `done` exactly when it is
not a cancellation, the exit code — defaulting to 0 when absent
(`unwrap_or(0)`) — equals 0, and `timed_out` is false; and `error` in every
other case. -/
theorem c1_terminal_status (r : RunResult) :
    (job_status_of (derive_status r) = "cancelled" ↔ r.error = some "cancelled")
    ∧ (job_status_of (derive_status r) = "done" ↔
        (r.error ≠ some "cancelled" ∧ r.exit_code.getD 0 = 0 ∧ r.timed_out = false))
    ∧ (job_status_of (derive_status r) = "error" ↔
        (r.error ≠ some "cancelled" ∧
          ¬(r.exit_code.getD 0 = 0 ∧ r.timed_out = false))) := by
  unfold derive_status job_status_of
  by_cases hc : r.error = some "cancelled" <;>
    by_cases hok : (r.exit_code.getD 0 = 0 ∧ r.timed_out = false) <;>
      simp [hc, hok]

/-- C1 (witness): the amended characterization applied to the concrete
signal-killed result. -/
theorem c1_terminal_status_witness :
    job_status_of (derive_status
      { stdout := emptyPlaceholder, stderr := emptyPlaceholder,
        exit_code := none, signal := some "9", started_at := "s",
        finished_at := "f", duration_ms := 0, stdout_truncated := false,
        stderr_truncated := false, error := none, timed_out := false }) = "done" :=
  (c1_terminal_status _).2.1.mpr (by decide)

/-! ## C5: the cancel handler -/

/-- C5.  `cancel_sub_agent_job`: a registered flag is set to true; an absent
flag leaves the registry unchanged; whatever row is stored under the id —
whatever its current status — is overwritten to `cancelled` with error
`"cancelled"` (and is the returned record); rows under other ids are
untouched.  Totality of the definition reflects that the handler never
panics. -/
theorem c5_cancel_handler (reg : Registry) (store : StoreState)
    (job_id now : String) :
    (∀ b, registry_find reg job_id = some b →
      registry_find (cancel_sub_agent_job reg store job_id now).1 job_id = some true)
    ∧ (registry_find reg job_id = none →
      (cancel_sub_agent_job reg store job_id now).1 = reg)
    ∧ (∀ rec, get_job store job_id = some rec →
      (cancel_sub_agent_job reg store job_id now).2.2
        = some { rec with status := "cancelled", result_json := none,
                          error := some "cancelled", updated_at := now }
      ∧ get_job (cancel_sub_agent_job reg store job_id now).2.1 job_id
        = some { rec with status := "cancelled", result_json := none,
                          error := some "cancelled", updated_at := now })
    ∧ (∀ other, other ≠ job_id →
      get_job (cancel_sub_agent_job reg store job_id now).2.1 other
        = get_job store other) := by
  refine ⟨?_, ?_, ?_, ?_⟩
  · intro b hb
    show registry_find (cancel_set_flag reg job_id) job_id = some true
    rw [registry_find_set_flag, hb]
    rfl
  · intro hnone
    show cancel_set_flag reg job_id = reg
    exact cancel_set_flag_of_none reg job_id hnone
  · intro rec hrec
    constructor
    · show (update_job_status store job_id "cancelled" none (some "cancelled") now).2 = _
      rw [update_job_status_snd, hrec]
      rfl
    · show get_job (update_job_status store job_id "cancelled" none
        (some "cancelled") now).1 job_id = _
      rw [get_job_update_same, hrec]
      rfl
  · intro other hother
    show get_job (update_job_status store job_id "cancelled" none
      (some "cancelled") now).1 other = _
    exact get_job_update_other store job_id other "cancelled" none
      (some "cancelled") now hother

/-- C5 (witness): cancelling `"j1"` on the concrete registry and store sets
the flag and overwrites the already-terminal `done` row to `cancelled`. -/
theorem c5_cancel_handler_witness :
    registry_find (cancel_sub_agent_job regW storeW "j1" "t1").1 "j1" = some true
    ∧ (cancel_sub_agent_job regW storeW "j1" "t1").2.2
      = some { recW with status := "cancelled", result_json := none,
                         error := some "cancelled", updated_at := "t1" } := by
  refine ⟨(c5_cancel_handler regW storeW "j1" "t1").1 false rfl, ?_⟩
  exact ((c5_cancel_handler regW storeW "j1" "t1").2.2.1 recW rfl).1

/-! ## C9: empty command list -/

/-- C9.  `run_command` on an empty command vector returns the error
`"Command is required"` irrespective of every other argument and of the
environment trace — the check precedes the spawn, so the result does not
depend on the trace (including its setup-failure slot), and the definition
is total, reflecting that no panic occurs. -/
theorem c9_empty_command (env : List (String × String)) (cwd : Option String)
    (timeout_ms : Int) (max_output_bytes : Nat) (input : Option String)
    (hasCancelFlag : Bool) (trace : RunnerTrace) :
    run_command [] env cwd timeout_ms max_output_bytes input hasCancelFlag trace
    = Except.error "Command is required" := rfl

/-! ## C10: updating and reading a missing job id -/

/-- C10.  When no stored row carries the id, `update_job_status` succeeds,
returns no record and leaves the store unchanged (nothing is inserted), and
`get_job` returns `none` rather than an error. -/
theorem c10_update_missing (store : StoreState) (job_id status : String)
    (result_json error : Option String) (now : String)
    (h : ∀ r ∈ store.jobs, r.id ≠ job_id) :
    update_job_status store job_id status result_json error now = (store, none)
    ∧ get_job store job_id = none := by
  have hfind : store.jobs.find? (fun r => r.id == job_id) = none := by
    rw [List.find?_eq_none]
    intro r hr
    simpa using h r hr
  have hmap : store.jobs.map (fun r =>
      if r.id == job_id then
        { r with status := status, result_json := result_json, error := error,
                 updated_at := now }
      else r) = store.jobs := by
    have hrow : ∀ r ∈ store.jobs, (if r.id == job_id then
        ({ r with status := status, result_json := result_json, error := error,
                  updated_at := now } : JobRecord)
      else r) = r := by
      intro r hr
      simp [h r hr]
    rw [List.map_congr_left hrow]
    exact List.map_id store.jobs
  refine ⟨?_, hfind⟩
  simp only [update_job_status, get_job]
  rw [hmap, hfind]

/-- C10 (witness): updating and reading the absent id `"missing"` on the
concrete store. -/
theorem c10_update_missing_witness :
    update_job_status storeW "missing" "x" none none "t" = (storeW, none)
    ∧ get_job storeW "missing" = none :=
  c10_update_missing storeW "missing" "x" none none "t" (by decide)

/-! ## C8: the async job lifecycle -/

/-- `job_status_of` only produces the three terminal statuses. -/
theorem job_status_of_terminal (s : String) :
    job_status_of s = "done" ∨ job_status_of s = "cancelled"
    ∨ job_status_of s = "error" := by
  unfold job_status_of
  by_cases h1 : s = "ok"
  · simp [h1]
  · by_cases h2 : s = "cancelled" <;> simp [h1, h2]

/-- With a fresh id, `create_job` makes the created record retrievable. -/
theorem get_job_create (store : StoreState) (newId task : String)
    (agent_id command_id payload_json : Option String)
    (now session_id run_id : String)
    (hfresh : ∀ r ∈ store.jobs, r.id ≠ newId) :
    get_job (create_job store newId task agent_id command_id payload_json
      now session_id run_id).1 newId
    = some (create_job store newId task agent_id command_id payload_json
      now session_id run_id).2 := by
  simp only [create_job, get_job]
  rw [List.find?_append]
  have hold : store.jobs.find? (fun r => r.id == newId) = none := by
    rw [List.find?_eq_none]
    intro r hr
    simpa using hfresh r hr
  rw [hold]
  simp

/-- `append_event` leaves the jobs table untouched. -/
theorem get_job_append_event (store : StoreState)
    (eventId jid etype : String) (payload_json : Option String)
    (now session_id run_id : String) (other : String) :
    get_job (append_event store eventId jid etype payload_json
      now session_id run_id).1 other = get_job store other := rfl

/-- C8.  `start_sub_agent_async`: the record is created with status
`queued`, moved to `running` and a `start` event appended (with the
cancellation flag registered) before the job id is returned; when the
background run finishes, exactly one terminal status — carrying the result
payload — is persisted, one `finish` event is appended, and the registry
entry is removed, so the id is absent from the registry afterwards. -/
theorem c8_async_lifecycle (store : StoreState) (reg : Registry)
    (newId task : String) (agent_id command_id : Option String)
    (payload_json startPayload : Option String)
    (eventId now session_id run_id : String)
    (runOutcome : Except String RunResult) (payloadStr : String)
    (finishPayload : Option String) (eventId2 now2 : String)
    (store1 store2 : StoreState) (reg1 reg2 : Registry) (job : JobRecord)
    (hfresh : ∀ r ∈ store.jobs, r.id ≠ newId)
    (h1 : start_sub_agent_async_setup store reg newId task agent_id command_id
      payload_json startPayload eventId now session_id run_id
      = (store1, reg1, job))
    (h2 : start_sub_agent_async_finish store1 reg1 job.id runOutcome
      payloadStr finishPayload eventId2 now2 session_id run_id
      = (store2, reg2)) :
    job.status = "queued"
    ∧ job.id = newId
    ∧ get_job store1 newId
        = some { job with status := "running", result_json := none,
                          error := none, updated_at := now }
    ∧ (∃ e ∈ store1.events, e.job_id = newId ∧ e.type = "start")
    ∧ registry_find reg1 newId = some false
    ∧ get_job store2 newId
        = some { job with status := job_status_of (background_status runOutcome),
                          result_json := some payloadStr, error := none,
                          updated_at := now2 }
    ∧ (job_status_of (background_status runOutcome) = "done"
        ∨ job_status_of (background_status runOutcome) = "cancelled"
        ∨ job_status_of (background_status runOutcome) = "error")
    ∧ countFinish store2.events newId = countFinish store1.events newId + 1
    ∧ registry_find reg2 newId = none := by
  have e1 : (start_sub_agent_async_setup store reg newId task agent_id
      command_id payload_json startPayload eventId now session_id run_id).1
      = store1 := congrArg Prod.fst h1
  have e2 : (start_sub_agent_async_setup store reg newId task agent_id
      command_id payload_json startPayload eventId now session_id run_id).2.1
      = reg1 := congrArg (fun p => p.2.1) h1
  have e3 : (start_sub_agent_async_setup store reg newId task agent_id
      command_id payload_json startPayload eventId now session_id run_id).2.2
      = job := congrArg (fun p => p.2.2) h1
  subst e1 e2 e3
  have f1 : (start_sub_agent_async_finish _ _ _ runOutcome payloadStr
      finishPayload eventId2 now2 session_id run_id).1 = store2 :=
    congrArg Prod.fst h2
  have f2 : (start_sub_agent_async_finish _ _ _ runOutcome payloadStr
      finishPayload eventId2 now2 session_id run_id).2 = reg2 :=
    congrArg Prod.snd h2
  subst f1 f2
  simp only [start_sub_agent_async_setup, start_sub_agent_async_finish]
  have hid : (create_job store newId task agent_id command_id payload_json now
      session_id run_id).2.id = newId := rfl
  simp only [hid]
  refine ⟨rfl, by trivial, ?_, ?_, ?_, ?_, job_status_of_terminal _, ?_, ?_⟩
  · rw [get_job_append_event, get_job_update_same, get_job_create]
    · rfl
    · exact hfresh
  · refine ⟨(append_event (update_job_status (create_job store newId task
      agent_id command_id payload_json now session_id run_id).1 newId
      "running" none none now).1 eventId newId "start" startPayload now
      session_id run_id).2, ?_, rfl, rfl⟩
    simp [append_event, update_job_status, create_job]
  · exact registry_find_insert reg newId
  · rw [get_job_append_event, get_job_update_same, get_job_append_event,
      get_job_update_same, get_job_create]
    · rfl
    · exact hfresh
  · simp only [countFinish, append_event, update_job_status]
    rw [List.countP_append]
    simp
  · exact registry_find_remove _ newId

/-- C8 (witness): the lifecycle applied to a concrete job started on an
empty store and registry. -/
theorem c8_async_lifecycle_witness :
    (start_sub_agent_async_setup ⟨[], []⟩ [] "jx" "t" none none none none
      "e1" "n1" "s" "r").2.2.status = "queued"
    ∧ registry_find (start_sub_agent_async_finish
        (start_sub_agent_async_setup ⟨[], []⟩ [] "jx" "t" none none none none
          "e1" "n1" "s" "r").1
        (start_sub_agent_async_setup ⟨[], []⟩ [] "jx" "t" none none none none
          "e1" "n1" "s" "r").2.1
        (start_sub_agent_async_setup ⟨[], []⟩ [] "jx" "t" none none none none
          "e1" "n1" "s" "r").2.2.id
        (Except.error "boom") "{}" none "e2" "n2" "s" "r").2 "jx" = none := by
  have h := c8_async_lifecycle ⟨[], []⟩ [] "jx" "t" none none none none
    "e1" "n1" "s" "r" (Except.error "boom") "{}" none "e2" "n2"
    (start_sub_agent_async_setup ⟨[], []⟩ [] "jx" "t" none none none none
      "e1" "n1" "s" "r").1
    (start_sub_agent_async_finish
      (start_sub_agent_async_setup ⟨[], []⟩ [] "jx" "t" none none none none
        "e1" "n1" "s" "r").1
      (start_sub_agent_async_setup ⟨[], []⟩ [] "jx" "t" none none none none
        "e1" "n1" "s" "r").2.1
      (start_sub_agent_async_setup ⟨[], []⟩ [] "jx" "t" none none none none
        "e1" "n1" "s" "r").2.2.id
      (Except.error "boom") "{}" none "e2" "n2" "s" "r").1
    (start_sub_agent_async_setup ⟨[], []⟩ [] "jx" "t" none none none none
      "e1" "n1" "s" "r").2.1
    (start_sub_agent_async_finish
      (start_sub_agent_async_setup ⟨[], []⟩ [] "jx" "t" none none none none
        "e1" "n1" "s" "r").1
      (start_sub_agent_async_setup ⟨[], []⟩ [] "jx" "t" none none none none
        "e1" "n1" "s" "r").2.1
      (start_sub_agent_async_setup ⟨[], []⟩ [] "jx" "t" none none none none
        "e1" "n1" "s" "r").2.2.id
      (Except.error "boom") "{}" none "e2" "n2" "s" "r").2
    (start_sub_agent_async_setup ⟨[], []⟩ [] "jx" "t" none none none none
      "e1" "n1" "s" "r").2.2
    (by simp) rfl rfl
  exact ⟨h.1, h.2.2.2.2.2.2.2.2⟩

/-! ## Projection lemmas for the loop steps -/

@[simp] theorem pollStep_timedOut (st : RunState) (tick : Tick) :
    (pollStep st tick).timedOut = st.timedOut := by
  unfold pollStep; split <;> rfl

@[simp] theorem pollStep_cancelled (st : RunState) (tick : Tick) :
    (pollStep st tick).cancelled = st.cancelled := by
  unfold pollStep; split <;> rfl

@[simp] theorem pollStep_actions (st : RunState) (tick : Tick) :
    (pollStep st tick).actions = st.actions := by
  unfold pollStep; split <;> rfl

@[simp] theorem pollStep_killDeadline (st : RunState) (tick : Tick) :
    (pollStep st tick).killDeadline = st.killDeadline := by
  unfold pollStep; split <;> rfl

@[simp] theorem pollStep_stdoutText (st : RunState) (tick : Tick) :
    (pollStep st tick).stdoutText = st.stdoutText := by
  unfold pollStep; split <;> rfl

@[simp] theorem pollStep_stderrText (st : RunState) (tick : Tick) :
    (pollStep st tick).stderrText = st.stderrText := by
  unfold pollStep; split <;> rfl

@[simp] theorem pollStep_stdoutTruncated (st : RunState) (tick : Tick) :
    (pollStep st tick).stdoutTruncated = st.stdoutTruncated := by
  unfold pollStep; split <;> rfl

@[simp] theorem pollStep_stderrTruncated (st : RunState) (tick : Tick) :
    (pollStep st tick).stderrTruncated = st.stderrTruncated := by
  unfold pollStep; split <;> rfl

@[simp] theorem runTimeoutStep_cancelled (T : Int) (st : RunState) (tick : Tick) :
    (runTimeoutStep T st tick).cancelled = st.cancelled := by
  unfold runTimeoutStep; split <;> rfl

@[simp] theorem runTimeoutStep_stdoutText (T : Int) (st : RunState) (tick : Tick) :
    (runTimeoutStep T st tick).stdoutText = st.stdoutText := by
  unfold runTimeoutStep; split <;> rfl

@[simp] theorem runTimeoutStep_stderrText (T : Int) (st : RunState) (tick : Tick) :
    (runTimeoutStep T st tick).stderrText = st.stderrText := by
  unfold runTimeoutStep; split <;> rfl

@[simp] theorem runTimeoutStep_stdoutTruncated (T : Int) (st : RunState) (tick : Tick) :
    (runTimeoutStep T st tick).stdoutTruncated = st.stdoutTruncated := by
  unfold runTimeoutStep; split <;> rfl

@[simp] theorem runTimeoutStep_stderrTruncated (T : Int) (st : RunState) (tick : Tick) :
    (runTimeoutStep T st tick).stderrTruncated = st.stderrTruncated := by
  unfold runTimeoutStep; split <;> rfl

@[simp] theorem runCancelStep_timedOut (f : Bool) (st : RunState) (tick : Tick) :
    (runCancelStep f st tick).timedOut = st.timedOut := by
  unfold runCancelStep; split <;> rfl

@[simp] theorem runCancelStep_stdoutText (f : Bool) (st : RunState) (tick : Tick) :
    (runCancelStep f st tick).stdoutText = st.stdoutText := by
  unfold runCancelStep; split <;> rfl

@[simp] theorem runCancelStep_stderrText (f : Bool) (st : RunState) (tick : Tick) :
    (runCancelStep f st tick).stderrText = st.stderrText := by
  unfold runCancelStep; split <;> rfl

@[simp] theorem runCancelStep_stdoutTruncated (f : Bool) (st : RunState) (tick : Tick) :
    (runCancelStep f st tick).stdoutTruncated = st.stdoutTruncated := by
  unfold runCancelStep; split <;> rfl

@[simp] theorem runCancelStep_stderrTruncated (f : Bool) (st : RunState) (tick : Tick) :
    (runCancelStep f st tick).stderrTruncated = st.stderrTruncated := by
  unfold runCancelStep; split <;> rfl

@[simp] theorem runKillStep_timedOut (st : RunState) (tick : Tick) :
    (runKillStep st tick).timedOut = st.timedOut := by
  unfold runKillStep
  cases st.killDeadline with
  | none => rfl
  | some d => dsimp only; split <;> rfl

@[simp] theorem runKillStep_cancelled (st : RunState) (tick : Tick) :
    (runKillStep st tick).cancelled = st.cancelled := by
  unfold runKillStep
  cases st.killDeadline with
  | none => rfl
  | some d => dsimp only; split <;> rfl

@[simp] theorem runKillStep_stdoutText (st : RunState) (tick : Tick) :
    (runKillStep st tick).stdoutText = st.stdoutText := by
  unfold runKillStep
  cases st.killDeadline with
  | none => rfl
  | some d => dsimp only; split <;> rfl

@[simp] theorem runKillStep_stderrText (st : RunState) (tick : Tick) :
    (runKillStep st tick).stderrText = st.stderrText := by
  unfold runKillStep
  cases st.killDeadline with
  | none => rfl
  | some d => dsimp only; split <;> rfl

@[simp] theorem runKillStep_stdoutTruncated (st : RunState) (tick : Tick) :
    (runKillStep st tick).stdoutTruncated = st.stdoutTruncated := by
  unfold runKillStep
  cases st.killDeadline with
  | none => rfl
  | some d => dsimp only; split <;> rfl

@[simp] theorem runKillStep_stderrTruncated (st : RunState) (tick : Tick) :
    (runKillStep st tick).stderrTruncated = st.stderrTruncated := by
  unfold runKillStep
  cases st.killDeadline with
  | none => rfl
  | some d => dsimp only; split <;> rfl

@[simp] theorem runEventStep_timedOut (C : Nat) (st : RunState) (e : StreamEvent) :
    (runEventStep C st e).timedOut = st.timedOut := by
  unfold runEventStep
  rcases e with ⟨k, c⟩ | k <;> cases k <;> rfl

@[simp] theorem runEventStep_cancelled (C : Nat) (st : RunState) (e : StreamEvent) :
    (runEventStep C st e).cancelled = st.cancelled := by
  unfold runEventStep
  rcases e with ⟨k, c⟩ | k <;> cases k <;> rfl

@[simp] theorem runEventStep_actions (C : Nat) (st : RunState) (e : StreamEvent) :
    (runEventStep C st e).actions = st.actions := by
  unfold runEventStep
  rcases e with ⟨k, c⟩ | k <;> cases k <;> rfl

@[simp] theorem runEventStep_killDeadline (C : Nat) (st : RunState) (e : StreamEvent) :
    (runEventStep C st e).killDeadline = st.killDeadline := by
  unfold runEventStep
  rcases e with ⟨k, c⟩ | k <;> cases k <;> rfl

@[simp] theorem shellPollStep_timedOut (st : ShellState) (tick : Tick) :
    (shellPollStep st tick).timedOut = st.timedOut := by
  unfold shellPollStep; split <;> rfl

@[simp] theorem shellPollStep_lastActivity (st : ShellState) (tick : Tick) :
    (shellPollStep st tick).lastActivity = st.lastActivity := by
  unfold shellPollStep; split <;> rfl

@[simp] theorem shellPollStep_actions (st : ShellState) (tick : Tick) :
    (shellPollStep st tick).actions = st.actions := by
  unfold shellPollStep; split <;> rfl

@[simp] theorem shellPollStep_killDeadline (st : ShellState) (tick : Tick) :
    (shellPollStep st tick).killDeadline = st.killDeadline := by
  unfold shellPollStep; split <;> rfl

@[simp] theorem shellPollStep_output (st : ShellState) (tick : Tick) :
    (shellPollStep st tick).output = st.output := by
  unfold shellPollStep; split <;> rfl

@[simp] theorem shellPollStep_stdoutText (st : ShellState) (tick : Tick) :
    (shellPollStep st tick).stdoutText = st.stdoutText := by
  unfold shellPollStep; split <;> rfl

@[simp] theorem shellPollStep_stderrText (st : ShellState) (tick : Tick) :
    (shellPollStep st tick).stderrText = st.stderrText := by
  unfold shellPollStep; split <;> rfl

@[simp] theorem shellPollStep_truncated (st : ShellState) (tick : Tick) :
    (shellPollStep st tick).truncated = st.truncated := by
  unfold shellPollStep; split <;> rfl

@[simp] theorem shellPollStep_totalBytes (st : ShellState) (tick : Tick) :
    (shellPollStep st tick).totalBytes = st.totalBytes := by
  unfold shellPollStep; split <;> rfl

@[simp] theorem shellTimeoutStep_lastActivity (T : Int) (st : ShellState) (tick : Tick) :
    (shellTimeoutStep T st tick).lastActivity = st.lastActivity := by
  unfold shellTimeoutStep; split <;> [skip; rfl]; split <;> rfl

@[simp] theorem shellTimeoutStep_output (T : Int) (st : ShellState) (tick : Tick) :
    (shellTimeoutStep T st tick).output = st.output := by
  unfold shellTimeoutStep; split <;> [skip; rfl]; split <;> rfl

@[simp] theorem shellTimeoutStep_stdoutText (T : Int) (st : ShellState) (tick : Tick) :
    (shellTimeoutStep T st tick).stdoutText = st.stdoutText := by
  unfold shellTimeoutStep; split <;> [skip; rfl]; split <;> rfl

@[simp] theorem shellTimeoutStep_stderrText (T : Int) (st : ShellState) (tick : Tick) :
    (shellTimeoutStep T st tick).stderrText = st.stderrText := by
  unfold shellTimeoutStep; split <;> [skip; rfl]; split <;> rfl

@[simp] theorem shellTimeoutStep_truncated (T : Int) (st : ShellState) (tick : Tick) :
    (shellTimeoutStep T st tick).truncated = st.truncated := by
  unfold shellTimeoutStep; split <;> [skip; rfl]; split <;> rfl

@[simp] theorem shellTimeoutStep_totalBytes (T : Int) (st : ShellState) (tick : Tick) :
    (shellTimeoutStep T st tick).totalBytes = st.totalBytes := by
  unfold shellTimeoutStep; split <;> [skip; rfl]; split <;> rfl

@[simp] theorem shellTimeoutStep_lastStream (T : Int) (st : ShellState) (tick : Tick) :
    (shellTimeoutStep T st tick).lastStream = st.lastStream := by
  unfold shellTimeoutStep; split <;> [skip; rfl]; split <;> rfl

@[simp] theorem shellKillStep_timedOut (st : ShellState) (tick : Tick) :
    (shellKillStep st tick).timedOut = st.timedOut := by
  unfold shellKillStep
  cases st.killDeadline with
  | none => rfl
  | some d => dsimp only; split <;> rfl

@[simp] theorem shellKillStep_lastActivity (st : ShellState) (tick : Tick) :
    (shellKillStep st tick).lastActivity = st.lastActivity := by
  unfold shellKillStep
  cases st.killDeadline with
  | none => rfl
  | some d => dsimp only; split <;> rfl

@[simp] theorem shellKillStep_output (st : ShellState) (tick : Tick) :
    (shellKillStep st tick).output = st.output := by
  unfold shellKillStep
  cases st.killDeadline with
  | none => rfl
  | some d => dsimp only; split <;> rfl

@[simp] theorem shellKillStep_stdoutText (st : ShellState) (tick : Tick) :
    (shellKillStep st tick).stdoutText = st.stdoutText := by
  unfold shellKillStep
  cases st.killDeadline with
  | none => rfl
  | some d => dsimp only; split <;> rfl

@[simp] theorem shellKillStep_stderrText (st : ShellState) (tick : Tick) :
    (shellKillStep st tick).stderrText = st.stderrText := by
  unfold shellKillStep
  cases st.killDeadline with
  | none => rfl
  | some d => dsimp only; split <;> rfl

@[simp] theorem shellKillStep_truncated (st : ShellState) (tick : Tick) :
    (shellKillStep st tick).truncated = st.truncated := by
  unfold shellKillStep
  cases st.killDeadline with
  | none => rfl
  | some d => dsimp only; split <;> rfl

@[simp] theorem shellKillStep_totalBytes (st : ShellState) (tick : Tick) :
    (shellKillStep st tick).totalBytes = st.totalBytes := by
  unfold shellKillStep
  cases st.killDeadline with
  | none => rfl
  | some d => dsimp only; split <;> rfl

@[simp] theorem shellKillStep_lastStream (st : ShellState) (tick : Tick) :
    (shellKillStep st tick).lastStream = st.lastStream := by
  unfold shellKillStep
  cases st.killDeadline with
  | none => rfl
  | some d => dsimp only; split <;> rfl

@[simp] theorem shellDataStep_lastActivity (C : Nat) (st : ShellState)
    (nowMs : Nat) (kind : StreamKind) (chunk : Bytes) :
    (shellDataStep C st nowMs kind chunk).lastActivity = nowMs := by
  unfold shellDataStep
  dsimp only
  split
  · rfl
  · split
    · rfl
    · cases kind <;> rfl

@[simp] theorem shellDataStep_timedOut (C : Nat) (st : ShellState)
    (nowMs : Nat) (kind : StreamKind) (chunk : Bytes) :
    (shellDataStep C st nowMs kind chunk).timedOut = st.timedOut := by
  unfold shellDataStep
  dsimp only
  split
  · rfl
  · split
    · rfl
    · cases kind <;> rfl

@[simp] theorem shellDataStep_actions (C : Nat) (st : ShellState)
    (nowMs : Nat) (kind : StreamKind) (chunk : Bytes) :
    (shellDataStep C st nowMs kind chunk).actions = st.actions := by
  unfold shellDataStep
  dsimp only
  split
  · rfl
  · split
    · rfl
    · cases kind <;> rfl

@[simp] theorem shellDataStep_killDeadline (C : Nat) (st : ShellState)
    (nowMs : Nat) (kind : StreamKind) (chunk : Bytes) :
    (shellDataStep C st nowMs kind chunk).killDeadline = st.killDeadline := by
  unfold shellDataStep
  dsimp only
  split
  · rfl
  · split
    · rfl
    · cases kind <;> rfl

@[simp] theorem shellEventStep_timedOut (C : Nat) (st : ShellState)
    (nowMs : Nat) (e : StreamEvent) :
    (shellEventStep C st nowMs e).timedOut = st.timedOut := by
  unfold shellEventStep
  rcases e with ⟨k, c⟩ | k
  · exact shellDataStep_timedOut C st nowMs k c
  · cases k <;> rfl

@[simp] theorem shellEventStep_actions (C : Nat) (st : ShellState)
    (nowMs : Nat) (e : StreamEvent) :
    (shellEventStep C st nowMs e).actions = st.actions := by
  unfold shellEventStep
  rcases e with ⟨k, c⟩ | k
  · exact shellDataStep_actions C st nowMs k c
  · cases k <;> rfl

@[simp] theorem shellEventStep_killDeadline (C : Nat) (st : ShellState)
    (nowMs : Nat) (e : StreamEvent) :
    (shellEventStep C st nowMs e).killDeadline = st.killDeadline := by
  unfold shellEventStep
  rcases e with ⟨k, c⟩ | k
  · exact shellDataStep_killDeadline C st nowMs k c
  · cases k <;> rfl

/-! ## C2: timeout semantics of the two loops -/

/-- In `run_command`, whenever the final state reports a timeout there is a
processed tick at which at least `T` ms had elapsed since process start —
the guard compares `start_time.elapsed()` against the configured timeout,
regardless of output activity. -/
theorem runLoop_timeout_from_start (T : Int) (C : Nat) (f : Bool) :
    ∀ (ticks : List Tick) (st : RunState), st.timedOut = false →
    (runLoop T C f st ticks).1.timedOut = true →
    ∃ pre tick post, ticks = pre ++ tick :: post ∧ 0 < T ∧ T ≤ (tick.now : Int) := by
  intro ticks
  induction ticks with
  | nil =>
    intro st h0 h1
    simp only [runLoop] at h1
    rw [h0] at h1
    cases h1
  | cons tick rest ih =>
    intro st h0 h1
    simp only [runLoop] at h1
    by_cases hbreak : (pollStep st tick).stdoutDone = true
        ∧ (pollStep st tick).stderrDone = true
        ∧ (pollStep st tick).exitStatus.isSome = true
    · rw [if_pos hbreak] at h1
      rw [pollStep_timedOut, h0] at h1
      cases h1
    · rw [if_neg hbreak] at h1
      by_cases hfire : T > 0 ∧ st.timedOut = false ∧ (tick.now : Int) ≥ T
      · exact ⟨[], tick, rest, rfl, hfire.1, hfire.2.2⟩
      · have hnofire : ¬(T > 0 ∧ (pollStep st tick).timedOut = false
            ∧ (tick.now : Int) ≥ T) := by
          rw [pollStep_timedOut]
          exact hfire
        rw [runTimeoutStep, if_neg hnofire] at h1
        rcases hr : tick.recv with e | _ | _ <;> rw [hr] at h1
        · have h0' : (runEventStep C (runKillStep
              (runCancelStep f (pollStep st tick) tick) tick) e).timedOut = false := by
            simp [h0]
          obtain ⟨pre, tk, post, heq, hT, hnow⟩ := ih _ h0' h1
          exact ⟨tick :: pre, tk, post, by rw [heq]; rfl, hT, hnow⟩
        · have h0' : (runKillStep
              (runCancelStep f (pollStep st tick) tick) tick).timedOut = false := by
            simp [h0]
          obtain ⟨pre, tk, post, heq, hT, hnow⟩ := ih _ h0' h1
          exact ⟨tick :: pre, tk, post, by rw [heq]; rfl, hT, hnow⟩
        · rw [show (runKillStep (runCancelStep f (pollStep st tick) tick)
              tick, rest).1 = runKillStep (runCancelStep f (pollStep st tick)
              tick) tick from rfl] at h1
          rw [runKillStep_timedOut, runCancelStep_timedOut,
            pollStep_timedOut, h0] at h1
          cases h1

/-- In `execute_shell`, whenever the final state reports a timeout there is
a processed tick at which at least `T` ms had elapsed since the last
processed data event (or since process start, `st.lastActivity`, if none was
processed) — the guard compares `last_activity.elapsed()` against the
configured timeout, and `last_activity` is reset on every data event. -/
theorem shellLoop_timeout_inactivity (T : Int) (C : Nat) :
    ∀ (ticks : List Tick) (st : ShellState), st.timedOut = false →
    (shellLoop T C st ticks).1.timedOut = true →
    ∃ pre tick post, ticks = pre ++ tick :: post ∧ 0 < T ∧
      T ≤ ((tick.now - lastData st.lastActivity pre : Nat) : Int) := by
  intro ticks
  induction ticks with
  | nil =>
    intro st h0 h1
    simp only [shellLoop] at h1
    rw [h0] at h1
    cases h1
  | cons tick rest ih =>
    intro st h0 h1
    simp only [shellLoop] at h1
    by_cases hbreak : (shellPollStep st tick).stdoutDone = true
        ∧ (shellPollStep st tick).stderrDone = true
        ∧ (shellPollStep st tick).exitStatus.isSome = true
    · rw [if_pos hbreak] at h1
      rw [shellPollStep_timedOut, h0] at h1
      cases h1
    · rw [if_neg hbreak] at h1
      by_cases hT : T > 0
      · by_cases hfire : st.timedOut = false
            ∧ ((tick.now - st.lastActivity : Nat) : Int) ≥ T
        · refine ⟨[], tick, rest, rfl, hT, ?_⟩
          simpa [lastData] using hfire.2
        · have hnofire : ¬((shellPollStep st tick).timedOut = false
              ∧ ((tick.now - (shellPollStep st tick).lastActivity : Nat) : Int) ≥ T) := by
            rw [shellPollStep_timedOut, shellPollStep_lastActivity]
            exact hfire
          rw [shellTimeoutStep, if_pos hT, if_neg hnofire] at h1
          rcases hr : tick.recv with e | _ | _ <;> rw [hr] at h1
          · have h0' : (shellEventStep C (shellKillStep (shellPollStep st tick)
                tick) tick.now e).timedOut = false := by
              simp [h0]
            obtain ⟨pre, tk, post, heq, hT', hnow⟩ := ih _ h0' h1
            refine ⟨tick :: pre, tk, post, by rw [heq]; rfl, hT', ?_⟩
            have hact : (shellEventStep C (shellKillStep (shellPollStep st tick)
                tick) tick.now e).lastActivity = tickDataTime st.lastActivity tick := by
              rcases e with ⟨k, c⟩ | k
              · simp [shellEventStep, tickDataTime, isDataTick, hr]
              · cases k <;> simp [shellEventStep, tickDataTime, isDataTick, hr]
            rw [hact] at hnow
            simpa [lastData] using hnow
          · have h0' : (shellKillStep (shellPollStep st tick) tick).timedOut = false := by
              simp [h0]
            obtain ⟨pre, tk, post, heq, hT', hnow⟩ := ih _ h0' h1
            refine ⟨tick :: pre, tk, post, by rw [heq]; rfl, hT', ?_⟩
            have hact : (shellKillStep (shellPollStep st tick) tick).lastActivity
                = tickDataTime st.lastActivity tick := by
              simp [tickDataTime, isDataTick, hr]
            rw [hact] at hnow
            simpa [lastData] using hnow
          · rw [show (shellKillStep (shellPollStep st tick) tick, rest).1
                = shellKillStep (shellPollStep st tick) tick from rfl] at h1
            rw [shellKillStep_timedOut, shellPollStep_timedOut, h0] at h1
            cases h1
      · rw [shellTimeoutStep, if_neg hT] at h1
        rcases hr : tick.recv with e | _ | _ <;> rw [hr] at h1
        · have h0' : (shellEventStep C (shellKillStep (shellPollStep st tick)
              tick) tick.now e).timedOut = false := by
            simp [h0]
          obtain ⟨pre, tk, post, heq, hT', hnow⟩ := ih _ h0' h1
          refine ⟨tick :: pre, tk, post, by rw [heq]; rfl, hT', ?_⟩
          have hact : (shellEventStep C (shellKillStep (shellPollStep st tick)
              tick) tick.now e).lastActivity = tickDataTime st.lastActivity tick := by
            rcases e with ⟨k, c⟩ | k
            · simp [shellEventStep, tickDataTime, isDataTick, hr]
            · cases k <;> simp [shellEventStep, tickDataTime, isDataTick, hr]
          rw [hact] at hnow
          simpa [lastData] using hnow
        · have h0' : (shellKillStep (shellPollStep st tick) tick).timedOut = false := by
            simp [h0]
          obtain ⟨pre, tk, post, heq, hT', hnow⟩ := ih _ h0' h1
          refine ⟨tick :: pre, tk, post, by rw [heq]; rfl, hT', ?_⟩
          have hact : (shellKillStep (shellPollStep st tick) tick).lastActivity
              = tickDataTime st.lastActivity tick := by
            simp [tickDataTime, isDataTick, hr]
          rw [hact] at hnow
          simpa [lastData] using hnow
        · rw [show (shellKillStep (shellPollStep st tick) tick, rest).1
              = shellKillStep (shellPollStep st tick) tick from rfl] at h1
          rw [shellKillStep_timedOut, shellPollStep_timedOut, h0] at h1
          cases h1

/-- C2 (counterexample).  With a 100 ms timeout configured, a data event
processed at 50 ms and a quiet poll at 100 ms, `run_command`'s loop sets
`timed_out` and requests termination at the 100 ms tick — although only
50 ms (< 100 ms) have elapsed since the last observed output event — while
`execute_shell`'s inactivity-based loop does not fire on the same trace.
This refutes the claim for `run_command`: its timeout fires merely T ms
after process start while output is still arriving. -/
theorem c2_counterexample :
    (runLoop 100 1000 false initRunState activeThenQuietTicks).1.timedOut = true
    ∧ (runLoop 100 1000 false initRunState activeThenQuietTicks).1.actions
      = [TermAction.sigtermTimeout 100]
    ∧ lastData 0 (activeThenQuietTicks.take 1) = 50
    ∧ (100 : Nat) - 50 < 100
    ∧ (shellLoop 100 1000 initShellState activeThenQuietTicks).1.timedOut = false := by
  refine ⟨by decide, by decide, by decide, by decide, by decide⟩

/-- C2 (amended).  In `execute_shell` the inactivity timeout fires only at a
tick at which at least `T` ms have elapsed since the last processed output
event (or since process start if none); in `run_command` the timeout fires
only at a tick at which at least `T` ms have elapsed since process start,
irrespective of output activity (and, per the counterexample, it can fire
while output is still arriving). -/
theorem c2_timeout_measurement :
    (∀ (T : Int) (C : Nat) (ticks : List Tick),
      (shellLoop T C initShellState ticks).1.timedOut = true →
      ∃ pre tick post, ticks = pre ++ tick :: post ∧ 0 < T ∧
        T ≤ ((tick.now - lastData 0 pre : Nat) : Int))
    ∧ (∀ (T : Int) (C : Nat) (f : Bool) (ticks : List Tick),
      (runLoop T C f initRunState ticks).1.timedOut = true →
      ∃ pre tick post, ticks = pre ++ tick :: post ∧ 0 < T ∧
        T ≤ (tick.now : Int)) := by
  constructor
  · intro T C ticks h
    exact shellLoop_timeout_inactivity T C ticks initShellState rfl h
  · intro T C f ticks h
    exact runLoop_timeout_from_start T C f ticks initRunState rfl h

/-- C2 (witness): the amended characterization applied to the concrete
timed-out shell and runner traces. -/
theorem c2_timeout_measurement_witness :
    (∃ pre tick post, timedOutShellTrace.ticks = pre ++ tick :: post
      ∧ 0 < (500 : Int)
      ∧ (500 : Int) ≤ ((tick.now - lastData 0 pre : Nat) : Int))
    ∧ (∃ pre tick post, timedOutTrace.ticks = pre ++ tick :: post
      ∧ 0 < (100 : Int)
      ∧ (100 : Int) ≤ (tick.now : Int)) :=
  ⟨c2_timeout_measurement.1 500 1000 timedOutShellTrace.ticks (by decide),
   c2_timeout_measurement.2 100 1000 false timedOutTrace.ticks (by decide)⟩

/-! ## C4: termination escalation -/

@[simp] theorem countTO_append (l1 l2 : List TermAction) :
    countTO (l1 ++ l2) = countTO l1 + countTO l2 :=
  List.countP_append _ l1 l2

@[simp] theorem countCA_append (l1 l2 : List TermAction) :
    countCA (l1 ++ l2) = countCA l1 + countCA l2 :=
  List.countP_append _ l1 l2

@[simp] theorem countTO_sigtermTimeout (t : Nat) :
    countTO [TermAction.sigtermTimeout t] = 1 := rfl

@[simp] theorem countTO_sigtermCancel (t : Nat) :
    countTO [TermAction.sigtermCancel t] = 0 := rfl

@[simp] theorem countTO_sigkill (t : Nat) :
    countTO [TermAction.sigkill t] = 0 := rfl

@[simp] theorem countCA_sigtermTimeout (t : Nat) :
    countCA [TermAction.sigtermTimeout t] = 0 := rfl

@[simp] theorem countCA_sigtermCancel (t : Nat) :
    countCA [TermAction.sigtermCancel t] = 1 := rfl

@[simp] theorem countCA_sigkill (t : Nat) :
    countCA [TermAction.sigkill t] = 0 := rfl

/-- A SIGTERM of either cause counts as one graceful request. -/
theorem countTerm_eq (l : List TermAction) :
    countTerm l = countTO l + countCA l := by
  induction l with
  | nil => rfl
  | cons a t ih =>
    cases a <;>
      simp [countTerm, countTO, countCA, List.countP_cons] at * <;>
      omega

/-- Appending actions preserves the late-kill property of the suffix
provenance: each old SIGKILL keeps its old SIGTERM. -/
theorem sigkillLate_append (l : List TermAction) (a : TermAction)
    (h : SigkillLate l)
    (ha : ∀ t, a = TermAction.sigkill t →
      ∃ u, u + 2000 ≤ t ∧ (TermAction.sigtermTimeout u ∈ l ++ [a]
        ∨ TermAction.sigtermCancel u ∈ l ++ [a])) :
    SigkillLate (l ++ [a]) := by
  intro t ht
  rcases List.mem_append.mp ht with hin | hin
  · obtain ⟨u, hu, hmem⟩ := h t hin
    exact ⟨u, hu, hmem.imp (List.mem_append_left _) (List.mem_append_left _)⟩
  · exact ha t (List.mem_singleton.mp hin).symm

theorem pollStep_term_inv (st : RunState) (tick : Tick) :
    RunTermInv st → RunTermInv (pollStep st tick) := by
  intro h
  simpa [RunTermInv] using h

theorem runEventStep_term_inv (C : Nat) (st : RunState) (e : StreamEvent) :
    RunTermInv st → RunTermInv (runEventStep C st e) := by
  intro h
  simpa [RunTermInv] using h

theorem runTimeoutStep_term_inv (T : Int) (st : RunState) (tick : Tick) :
    RunTermInv st → RunTermInv (runTimeoutStep T st tick) := by
  intro h
  obtain ⟨h1, h2, h3, h4, h5, h6⟩ := h
  unfold runTimeoutStep
  split
  case isTrue hg =>
    have hTO : countTO st.actions = 0 := h1 hg.2.1
    refine ⟨fun h' => Bool.noConfusion h', ?_, ?_, ?_, ?_, ?_⟩
    · simp [hTO]
    · intro h'
      simp [h3 h']
    · simp [h4]
    · intro d hd
      refine ⟨tick.now, ?_, Or.inl ?_⟩
      · exact (Option.some.injEq _ _).mp hd.symm
      · exact List.mem_append_right _ (List.mem_singleton_self _)
    · refine sigkillLate_append _ _ h6 ?_
      intro t hkill
      cases hkill
  case isFalse => exact ⟨h1, h2, h3, h4, h5, h6⟩

theorem runCancelStep_term_inv (f : Bool) (st : RunState) (tick : Tick) :
    RunTermInv st → RunTermInv (runCancelStep f st tick) := by
  intro h
  obtain ⟨h1, h2, h3, h4, h5, h6⟩ := h
  unfold runCancelStep
  split
  case isTrue hg =>
    have hCA : countCA st.actions = 0 := h3 hg.2.2
    refine ⟨?_, ?_, fun h' => Bool.noConfusion h', ?_, ?_, ?_⟩
    · intro h'
      simp [h1 h']
    · simp [h2]
    · simp [hCA]
    · intro d hd
      refine ⟨tick.now, ?_, Or.inr ?_⟩
      · exact (Option.some.injEq _ _).mp hd.symm
      · exact List.mem_append_right _ (List.mem_singleton_self _)
    · refine sigkillLate_append _ _ h6 ?_
      intro t hkill
      cases hkill
  case isFalse => exact ⟨h1, h2, h3, h4, h5, h6⟩

theorem runKillStep_term_inv (st : RunState) (tick : Tick) :
    RunTermInv st → RunTermInv (runKillStep st tick) := by
  intro h
  obtain ⟨h1, h2, h3, h4, h5, h6⟩ := h
  unfold runKillStep
  cases hd : st.killDeadline with
  | none => exact ⟨h1, h2, h3, h4, fun d hd' => h5 d (hd ▸ hd'), h6⟩
  | some d =>
    dsimp only
    split
    case isTrue hge =>
      obtain ⟨u, hu, hmem⟩ := h5 d hd
      refine ⟨?_, ?_, ?_, ?_, ?_, ?_⟩
      · intro h'
        simp [h1 h']
      · simp [h2]
      · intro h'
        simp [h3 h']
      · simp [h4]
      · intro d' hd'
        cases hd'
      · refine sigkillLate_append _ _ h6 ?_
        intro t hkill
        cases hkill
        refine ⟨u, ?_, hmem.imp (List.mem_append_left _) (List.mem_append_left _)⟩
        omega
    case isFalse => exact ⟨h1, h2, h3, h4, fun d' hd' => h5 d' (hd ▸ hd'), h6⟩

/-- The runner loop preserves the termination-escalation invariant. -/
theorem runLoop_term_inv (T : Int) (C : Nat) (f : Bool) :
    ∀ (ticks : List Tick) (st : RunState), RunTermInv st →
    RunTermInv ((runLoop T C f st ticks).1) := by
  intro ticks
  induction ticks with
  | nil =>
    intro st h
    simpa only [runLoop] using h
  | cons tick rest ih =>
    intro st h
    simp only [runLoop]
    split
    · exact pollStep_term_inv st tick h
    · rcases hr : tick.recv with e | _ | _
      · exact ih _ (runEventStep_term_inv _ _ _ (runKillStep_term_inv _ _
          (runCancelStep_term_inv _ _ _ (runTimeoutStep_term_inv _ _ _
            (pollStep_term_inv _ _ h)))))
      · exact ih _ (runKillStep_term_inv _ _
          (runCancelStep_term_inv _ _ _ (runTimeoutStep_term_inv _ _ _
            (pollStep_term_inv _ _ h))))
      · exact runKillStep_term_inv _ _
          (runCancelStep_term_inv _ _ _ (runTimeoutStep_term_inv _ _ _
            (pollStep_term_inv _ _ h)))

theorem shellPollStep_term_inv (st : ShellState) (tick : Tick) :
    ShellTermInv st → ShellTermInv (shellPollStep st tick) := by
  intro h
  simpa [ShellTermInv] using h

theorem shellEventStep_term_inv (C : Nat) (st : ShellState) (nowMs : Nat)
    (e : StreamEvent) :
    ShellTermInv st → ShellTermInv (shellEventStep C st nowMs e) := by
  intro h
  simpa [ShellTermInv] using h

theorem shellTimeoutStep_term_inv (T : Int) (st : ShellState) (tick : Tick) :
    ShellTermInv st → ShellTermInv (shellTimeoutStep T st tick) := by
  intro h
  obtain ⟨h1, h2, h3, h4, h5⟩ := h
  unfold shellTimeoutStep
  split
  case isTrue =>
    split
    case isTrue hg =>
      have hTO : countTO st.actions = 0 := h1 hg.1
      refine ⟨fun h' => Bool.noConfusion h', ?_, ?_, ?_, ?_⟩
      · simp [hTO]
      · simp [h3]
      · intro d hd
        refine ⟨tick.now, ?_, Or.inl ?_⟩
        · exact (Option.some.injEq _ _).mp hd.symm
        · exact List.mem_append_right _ (List.mem_singleton_self _)
      · refine sigkillLate_append _ _ h5 ?_
        intro t hkill
        cases hkill
    case isFalse => exact ⟨h1, h2, h3, h4, h5⟩
  case isFalse => exact ⟨h1, h2, h3, h4, h5⟩

theorem shellKillStep_term_inv (st : ShellState) (tick : Tick) :
    ShellTermInv st → ShellTermInv (shellKillStep st tick) := by
  intro h
  obtain ⟨h1, h2, h3, h4, h5⟩ := h
  unfold shellKillStep
  cases hd : st.killDeadline with
  | none => exact ⟨h1, h2, h3, fun d hd' => h4 d (hd ▸ hd'), h5⟩
  | some d =>
    dsimp only
    split
    case isTrue hge =>
      obtain ⟨u, hu, hmem⟩ := h4 d hd
      refine ⟨?_, ?_, ?_, ?_, ?_⟩
      · intro h'
        simp [h1 h']
      · simp [h2]
      · simp [h3]
      · intro d' hd'
        cases hd'
      · refine sigkillLate_append _ _ h5 ?_
        intro t hkill
        cases hkill
        refine ⟨u, ?_, hmem.imp (List.mem_append_left _) (List.mem_append_left _)⟩
        omega
    case isFalse => exact ⟨h1, h2, h3, fun d' hd' => h4 d' (hd ▸ hd'), h5⟩

/-- The shell loop preserves the termination-escalation invariant. -/
theorem shellLoop_term_inv (T : Int) (C : Nat) :
    ∀ (ticks : List Tick) (st : ShellState), ShellTermInv st →
    ShellTermInv ((shellLoop T C st ticks).1) := by
  intro ticks
  induction ticks with
  | nil =>
    intro st h
    simpa only [shellLoop] using h
  | cons tick rest ih =>
    intro st h
    simp only [shellLoop]
    split
    · exact shellPollStep_term_inv st tick h
    · rcases hr : tick.recv with e | _ | _
      · exact ih _ (shellEventStep_term_inv _ _ _ _ (shellKillStep_term_inv _ _
          (shellTimeoutStep_term_inv _ _ _ (shellPollStep_term_inv _ _ h))))
      · exact ih _ (shellKillStep_term_inv _ _
          (shellTimeoutStep_term_inv _ _ _ (shellPollStep_term_inv _ _ h)))
      · exact shellKillStep_term_inv _ _
          (shellTimeoutStep_term_inv _ _ _ (shellPollStep_term_inv _ _ h))

/-- C4 (counterexample).  With a 100 ms timeout firing at 100 ms and the
cancellation flag reading true at 150 ms, `run_command` sends SIGTERM twice
in one execution — refuting "graceful termination is requested at most
once" — and the second request re-arms the 2-second deadline. -/
theorem c4_counterexample :
    countTerm (runLoop 100 1000 true initRunState timeoutThenCancelTicks).1.actions = 2
    ∧ (runLoop 100 1000 true initRunState timeoutThenCancelTicks).1.actions
      = [TermAction.sigtermTimeout 100, TermAction.sigtermCancel 150]
    ∧ (runLoop 100 1000 true initRunState timeoutThenCancelTicks).1.killDeadline
      = some 2150 := by
  refine ⟨by decide, by decide, by decide⟩

/-- C4 (amended).  In `run_command` each cause requests graceful termination
at most once — at most one timeout SIGTERM and at most one cancellation
SIGTERM, so at most two in total (the counterexample shows two are
reachable); in `execute_shell` SIGTERM is requested at most once.  Each
request (re)arms a 2-second deadline, and SIGKILL is sent only once an armed
deadline has expired, hence always at least 2000 ms after a logged graceful
request — whether or not the child has already exited. -/
theorem c4_escalation :
    (∀ (T : Int) (C : Nat) (f : Bool) (ticks : List Tick),
      countTO (runLoop T C f initRunState ticks).1.actions ≤ 1
      ∧ countCA (runLoop T C f initRunState ticks).1.actions ≤ 1
      ∧ SigkillLate (runLoop T C f initRunState ticks).1.actions)
    ∧ (∀ (T : Int) (C : Nat) (ticks : List Tick),
      countTerm (shellLoop T C initShellState ticks).1.actions ≤ 1
      ∧ SigkillLate (shellLoop T C initShellState ticks).1.actions) := by
  constructor
  · intro T C f ticks
    have h0 : RunTermInv initRunState := by
      refine ⟨fun _ => rfl, ?_, fun _ => rfl, ?_, ?_, ?_⟩
      · decide
      · decide
      · intro d hd
        cases hd
      · intro t ht
        cases ht
    obtain ⟨_, h2, _, h4, _, h6⟩ := runLoop_term_inv T C f ticks initRunState h0
    exact ⟨h2, h4, h6⟩
  · intro T C ticks
    have h0 : ShellTermInv initShellState := by
      refine ⟨fun _ => rfl, ?_, rfl, ?_, ?_⟩
      · decide
      · intro d hd
        cases hd
      · intro t ht
        cases ht
    obtain ⟨_, h2, h3, _, h5⟩ := shellLoop_term_inv T C ticks initShellState h0
    refine ⟨?_, h5⟩
    rw [countTerm_eq, h3]
    omega

/-- C4 (witness): the per-cause bounds applied to the concrete timed-out
traces. -/
theorem c4_escalation_witness :
    countTO (runLoop 100 1000 false initRunState timedOutTrace.ticks).1.actions ≤ 1
    ∧ countTerm (shellLoop 500 1000 initShellState timedOutShellTrace.ticks).1.actions ≤ 1 :=
  ⟨(c4_escalation.1 100 1000 false timedOutTrace.ticks).1,
   (c4_escalation.2 500 1000 timedOutShellTrace.ticks).1⟩

/-! ## C3: truncation bookkeeping -/

@[simp] theorem stdoutBytes_nil : stdoutBytes [] = 0 := rfl

@[simp] theorem stderrBytes_nil : stderrBytes [] = 0 := rfl

@[simp] theorem dataBytes_nil : dataBytes [] = 0 := rfl

theorem stdoutBytes_cons (t : Tick) (l : List Tick) :
    stdoutBytes (t :: l) = tickStreamBytes StreamKind.stdout t + stdoutBytes l := by
  simp [stdoutBytes]

theorem stderrBytes_cons (t : Tick) (l : List Tick) :
    stderrBytes (t :: l) = tickStreamBytes StreamKind.stderr t + stderrBytes l := by
  simp [stderrBytes]

theorem dataBytes_cons (t : Tick) (l : List Tick) :
    dataBytes (t :: l) = tickBytes t + dataBytes l := by
  simp [dataBytes]

/-- The aggregator never lets the captured text grow past the ceiling. -/
theorem appendChunk_le (C : Nat) (text : Bytes) (tr : Bool) (chunk : Bytes)
    (h : text.length ≤ C) : (appendChunk C text tr chunk).1.length ≤ C := by
  unfold appendChunk
  split
  · exact h
  · dsimp only
    split
    · simp only [List.length_append, List.length_take]
      omega
    · simp only [List.length_append]
      omega

/-- Once truncated, the aggregator drops the chunk entirely. -/
theorem appendChunk_frozen (C : Nat) (text : Bytes) (chunk : Bytes) :
    appendChunk C text true chunk = (text, true) := by
  unfold appendChunk
  simp

/-- While not truncated, a chunk that leaves the flag clear was appended in
full. -/
theorem appendChunk_full (C : Nat) (text : Bytes) (chunk : Bytes)
    (hres : (appendChunk C text false chunk).2 = false) :
    (appendChunk C text false chunk).1.length = text.length + chunk.length := by
  unfold appendChunk at hres ⊢
  rw [if_neg (by decide : ¬(false = true))] at hres ⊢
  by_cases hc : chunk.length > C - text.length
  · rw [if_pos hc] at hres
    cases hres
  · rw [if_neg hc]
    simp [List.length_append]

/-- The runner loop keeps both captured texts below the ceiling. -/
theorem runLoop_len_le (T : Int) (C : Nat) (f : Bool) :
    ∀ (ticks : List Tick) (st : RunState),
    st.stdoutText.length ≤ C → st.stderrText.length ≤ C →
    (runLoop T C f st ticks).1.stdoutText.length ≤ C
    ∧ (runLoop T C f st ticks).1.stderrText.length ≤ C := by
  intro ticks
  induction ticks with
  | nil =>
    intro st h1 h2
    simpa only [runLoop] using ⟨h1, h2⟩
  | cons tick rest ih =>
    intro st h1 h2
    simp only [runLoop]
    split
    · simpa using ⟨h1, h2⟩
    · rcases hr : tick.recv with e | _ | _
      · refine ih _ ?_ ?_
        · rcases e with ⟨k, c⟩ | k
          · cases k
            · show (appendChunk C _ _ c).1.length ≤ C
              exact appendChunk_le C _ _ c (by simpa [runEventStep] using h1)
            · simpa [runEventStep] using h1
          · cases k <;> simpa [runEventStep] using h1
        · rcases e with ⟨k, c⟩ | k
          · cases k
            · simpa [runEventStep] using h2
            · show (appendChunk C _ _ c).1.length ≤ C
              exact appendChunk_le C _ _ c (by simpa [runEventStep] using h2)
          · cases k <;> simpa [runEventStep] using h2
      · exact ih _ (by simpa [runEventStep] using h1) (by simpa [runEventStep] using h2)
      · constructor
        · simpa [runEventStep] using h1
        · simpa [runEventStep] using h2

/-- Once a runner stream is truncated, its flag stays set and its captured
text is frozen for the rest of the execution. -/
theorem runLoop_stdout_frozen (T : Int) (C : Nat) (f : Bool) :
    ∀ (ticks : List Tick) (st : RunState), st.stdoutTruncated = true →
    (runLoop T C f st ticks).1.stdoutTruncated = true
    ∧ (runLoop T C f st ticks).1.stdoutText = st.stdoutText := by
  intro ticks
  induction ticks with
  | nil =>
    intro st h
    exact ⟨h, rfl⟩
  | cons tick rest ih =>
    intro st h
    simp only [runLoop]
    split
    · exact ⟨by simp [h], by simp⟩
    · rcases hr : tick.recv with e | _ | _
      · rcases e with ⟨k, c⟩ | k
        · cases k
          · have hfr : appendChunk C (pollStep st tick).stdoutText
                (pollStep st tick).stdoutTruncated c
                = ((pollStep st tick).stdoutText, true) := by
              rw [pollStep_stdoutTruncated, h, pollStep_stdoutText]
              exact appendChunk_frozen C st.stdoutText c
            have := ih (runEventStep C (runKillStep (runCancelStep f
              (runTimeoutStep T (pollStep st tick) tick) tick) tick)
              (StreamEvent.data StreamKind.stdout c)) ?_
            · refine ⟨this.1, ?_⟩
              rw [this.2]
              show (appendChunk C _ _ c).1 = st.stdoutText
              simp only [runKillStep_stdoutText, runCancelStep_stdoutText,
                runTimeoutStep_stdoutText, pollStep_stdoutText,
                runKillStep_stdoutTruncated, runCancelStep_stdoutTruncated,
                runTimeoutStep_stdoutTruncated, pollStep_stdoutTruncated, h]
              rw [appendChunk_frozen C st.stdoutText c]
            · show (appendChunk C _ _ c).2 = true
              simp only [runKillStep_stdoutText, runCancelStep_stdoutText,
                runTimeoutStep_stdoutText, pollStep_stdoutText,
                runKillStep_stdoutTruncated, runCancelStep_stdoutTruncated,
                runTimeoutStep_stdoutTruncated, pollStep_stdoutTruncated, h]
              rw [appendChunk_frozen C st.stdoutText c]
          · have := ih (runEventStep C (runKillStep (runCancelStep f
              (runTimeoutStep T (pollStep st tick) tick) tick) tick)
              (StreamEvent.data StreamKind.stderr c)) (by simpa [runEventStep] using h)
            refine ⟨this.1, ?_⟩
            rw [this.2]
            simp [runEventStep]
        · cases k
          · have := ih _ (show ((runEventStep C (runKillStep (runCancelStep f
              (runTimeoutStep T (pollStep st tick) tick) tick) tick)
              (StreamEvent.done StreamKind.stdout))).stdoutTruncated = true from by
                simpa [runEventStep] using h)
            refine ⟨this.1, ?_⟩
            rw [this.2]
            simp [runEventStep]
          · have := ih _ (show ((runEventStep C (runKillStep (runCancelStep f
              (runTimeoutStep T (pollStep st tick) tick) tick) tick)
              (StreamEvent.done StreamKind.stderr))).stdoutTruncated = true from by
                simpa [runEventStep] using h)
            refine ⟨this.1, ?_⟩
            rw [this.2]
            simp [runEventStep]
      · have := ih (runKillStep (runCancelStep f (runTimeoutStep T
          (pollStep st tick) tick) tick) tick) (by simpa [runEventStep] using h)
        refine ⟨this.1, ?_⟩
        rw [this.2]
        simp [runEventStep]
      · constructor
        · simpa using h
        · simp

/-- Once the runner's stderr stream is truncated, its flag stays set and its
captured text is frozen for the rest of the execution. -/
theorem runLoop_stderr_frozen (T : Int) (C : Nat) (f : Bool) :
    ∀ (ticks : List Tick) (st : RunState), st.stderrTruncated = true →
    (runLoop T C f st ticks).1.stderrTruncated = true
    ∧ (runLoop T C f st ticks).1.stderrText = st.stderrText := by
  intro ticks
  induction ticks with
  | nil =>
    intro st h
    exact ⟨h, rfl⟩
  | cons tick rest ih =>
    intro st h
    simp only [runLoop]
    split
    · exact ⟨by simp [h], by simp⟩
    · rcases hr : tick.recv with e | _ | _
      · rcases e with ⟨k, c⟩ | k
        · cases k
          · have := ih (runEventStep C (runKillStep (runCancelStep f
              (runTimeoutStep T (pollStep st tick) tick) tick) tick)
              (StreamEvent.data StreamKind.stdout c)) (by simpa [runEventStep] using h)
            refine ⟨this.1, ?_⟩
            rw [this.2]
            simp [runEventStep]
          · have := ih (runEventStep C (runKillStep (runCancelStep f
              (runTimeoutStep T (pollStep st tick) tick) tick) tick)
              (StreamEvent.data StreamKind.stderr c)) ?_
            · refine ⟨this.1, ?_⟩
              rw [this.2]
              show (appendChunk C _ _ c).1 = st.stderrText
              simp only [runKillStep_stderrText, runCancelStep_stderrText,
                runTimeoutStep_stderrText, pollStep_stderrText,
                runKillStep_stderrTruncated, runCancelStep_stderrTruncated,
                runTimeoutStep_stderrTruncated, pollStep_stderrTruncated, h]
              rw [appendChunk_frozen C st.stderrText c]
            · show (appendChunk C _ _ c).2 = true
              simp only [runKillStep_stderrText, runCancelStep_stderrText,
                runTimeoutStep_stderrText, pollStep_stderrText,
                runKillStep_stderrTruncated, runCancelStep_stderrTruncated,
                runTimeoutStep_stderrTruncated, pollStep_stderrTruncated, h]
              rw [appendChunk_frozen C st.stderrText c]
        · cases k
          · have := ih _ (show ((runEventStep C (runKillStep (runCancelStep f
              (runTimeoutStep T (pollStep st tick) tick) tick) tick)
              (StreamEvent.done StreamKind.stdout))).stderrTruncated = true from by
                simpa [runEventStep] using h)
            refine ⟨this.1, ?_⟩
            rw [this.2]
            simp [runEventStep]
          · have := ih _ (show ((runEventStep C (runKillStep (runCancelStep f
              (runTimeoutStep T (pollStep st tick) tick) tick) tick)
              (StreamEvent.done StreamKind.stderr))).stderrTruncated = true from by
                simpa [runEventStep] using h)
            refine ⟨this.1, ?_⟩
            rw [this.2]
            simp [runEventStep]
      · have := ih (runKillStep (runCancelStep f (runTimeoutStep T
          (pollStep st tick) tick) tick) tick) (by simpa [runEventStep] using h)
        refine ⟨this.1, ?_⟩
        rw [this.2]
        simp [runEventStep]
      · constructor
        · simpa [runEventStep] using h
        · simp

/-- If the stdout flag is still clear after an event, it was clear before,
and stdout grew by exactly the delivered stdout bytes. -/
theorem runEventStep_stdout_account (C : Nat) (st : RunState) (e : StreamEvent)
    (h : (runEventStep C st e).stdoutTruncated = false) :
    st.stdoutTruncated = false
    ∧ (runEventStep C st e).stdoutText.length
      = st.stdoutText.length + (match e with
          | StreamEvent.data StreamKind.stdout c => c.length
          | _ => 0) := by
  rcases e with ⟨k, c⟩ | k
  · cases k
    · dsimp only [runEventStep] at h ⊢
      have hst : st.stdoutTruncated = false := by
        by_contra hne
        rw [Bool.not_eq_false] at hne
        rw [hne, appendChunk_frozen] at h
        cases h
      rw [hst] at h ⊢
      exact ⟨rfl, appendChunk_full C st.stdoutText c h⟩
    · exact ⟨by simpa [runEventStep] using h, by simp [runEventStep]⟩
  · cases k
    · exact ⟨by simpa [runEventStep] using h, by simp [runEventStep]⟩
    · exact ⟨by simpa [runEventStep] using h, by simp [runEventStep]⟩

/-- If the stderr flag is still clear after an event, it was clear before,
and stderr grew by exactly the delivered stderr bytes. -/
theorem runEventStep_stderr_account (C : Nat) (st : RunState) (e : StreamEvent)
    (h : (runEventStep C st e).stderrTruncated = false) :
    st.stderrTruncated = false
    ∧ (runEventStep C st e).stderrText.length
      = st.stderrText.length + (match e with
          | StreamEvent.data StreamKind.stderr c => c.length
          | _ => 0) := by
  rcases e with ⟨k, c⟩ | k
  · cases k
    · exact ⟨by simpa [runEventStep] using h, by simp [runEventStep]⟩
    · dsimp only [runEventStep] at h ⊢
      have hst : st.stderrTruncated = false := by
        by_contra hne
        rw [Bool.not_eq_false] at hne
        rw [hne, appendChunk_frozen] at h
        cases h
      rw [hst] at h ⊢
      exact ⟨rfl, appendChunk_full C st.stderrText c h⟩
  · cases k
    · exact ⟨by simpa [runEventStep] using h, by simp [runEventStep]⟩
    · exact ⟨by simpa [runEventStep] using h, by simp [runEventStep]⟩

/-- The runner loop consumes a prefix of the trace, and while a stream's
flag stays clear its captured length equals exactly the bytes delivered for
that stream in the processed prefix. -/
theorem runLoop_decomp (T : Int) (C : Nat) (f : Bool) :
    ∀ (ticks : List Tick) (st : RunState), ∃ pre,
    ticks = pre ++ (runLoop T C f st ticks).2
    ∧ ((runLoop T C f st ticks).1.stdoutTruncated = false →
        st.stdoutTruncated = false
        ∧ (runLoop T C f st ticks).1.stdoutText.length
          = st.stdoutText.length + stdoutBytes pre)
    ∧ ((runLoop T C f st ticks).1.stderrTruncated = false →
        st.stderrTruncated = false
        ∧ (runLoop T C f st ticks).1.stderrText.length
          = st.stderrText.length + stderrBytes pre) := by
  intro ticks
  induction ticks with
  | nil =>
    intro st
    exact ⟨[], rfl, fun h => ⟨h, by simp [runLoop]⟩, fun h => ⟨h, by simp [runLoop]⟩⟩
  | cons tick rest ih =>
    intro st
    simp only [runLoop]
    split
    · refine ⟨[], rfl, ?_, ?_⟩
      · intro h
        exact ⟨by simpa using h, by simp⟩
      · intro h
        exact ⟨by simpa using h, by simp⟩
    · rcases hr : tick.recv with e | _ | _
      · obtain ⟨pre, hpre, hout, herr⟩ := ih (runEventStep C (runKillStep
          (runCancelStep f (runTimeoutStep T (pollStep st tick) tick) tick)
          tick) e)
        refine ⟨tick :: pre, ?_, ?_, ?_⟩
        · rw [List.cons_append, ← hpre]
        · intro h
          obtain ⟨h4, hlen⟩ := hout h
          obtain ⟨h5, hstep⟩ := runEventStep_stdout_account C _ e h4
          refine ⟨by simpa using h5, ?_⟩
          rw [hlen, hstep]
          rcases e with ⟨k, c⟩ | k
          · cases k
            · simp only [stdoutBytes_cons, tickStreamBytes, hr]
              simp
              omega
            · simp only [stdoutBytes_cons, tickStreamBytes, hr]
              simp
          · cases k <;>
              · simp only [stdoutBytes_cons, tickStreamBytes, hr]
                simp
        · intro h
          obtain ⟨h4, hlen⟩ := herr h
          obtain ⟨h5, hstep⟩ := runEventStep_stderr_account C _ e h4
          refine ⟨by simpa using h5, ?_⟩
          rw [hlen, hstep]
          rcases e with ⟨k, c⟩ | k
          · cases k
            · simp only [stderrBytes_cons, tickStreamBytes, hr]
              simp
            · simp only [stderrBytes_cons, tickStreamBytes, hr]
              simp
              omega
          · cases k <;>
              · simp only [stderrBytes_cons, tickStreamBytes, hr]
                simp
      · obtain ⟨pre, hpre, hout, herr⟩ := ih (runKillStep (runCancelStep f
          (runTimeoutStep T (pollStep st tick) tick) tick) tick)
        refine ⟨tick :: pre, ?_, ?_, ?_⟩
        · rw [List.cons_append, ← hpre]
        · intro h
          obtain ⟨h4, hlen⟩ := hout h
          refine ⟨by simpa using h4, ?_⟩
          rw [hlen]
          simp only [stdoutBytes_cons, tickStreamBytes, hr]
          simp
        · intro h
          obtain ⟨h4, hlen⟩ := herr h
          refine ⟨by simpa using h4, ?_⟩
          rw [hlen]
          simp only [stderrBytes_cons, tickStreamBytes, hr]
          simp
      · refine ⟨[tick], rfl, ?_, ?_⟩
        · intro h
          refine ⟨by simpa using h, ?_⟩
          simp only [stdoutBytes_cons, tickStreamBytes, hr]
          simp
        · intro h
          refine ⟨by simpa using h, ?_⟩
          simp only [stderrBytes_cons, tickStreamBytes, hr]
          simp

/-- A data event on an already-truncated shell state only refreshes the
activity clock. -/
theorem shellDataStep_of_truncated (C : Nat) (st : ShellState) (n : Nat)
    (k : StreamKind) (c : Bytes) (h : st.truncated = true) :
    shellDataStep C st n k c = { st with lastActivity := n } := by
  unfold shellDataStep
  dsimp only
  rw [if_pos h]

/-- The shell aggregator keeps the combined output in sync with the byte
counter and below the ceiling. -/
theorem shellDataStep_bound (C : Nat) (st : ShellState) (n : Nat)
    (k : StreamKind) (c : Bytes) (hlen : st.output.length = st.totalBytes)
    (hle : st.totalBytes ≤ C) :
    (shellDataStep C st n k c).output.length = (shellDataStep C st n k c).totalBytes
    ∧ (shellDataStep C st n k c).totalBytes ≤ C := by
  unfold shellDataStep
  dsimp only
  split
  · exact ⟨hlen, hle⟩
  · split
    · exact ⟨hlen, hle⟩
    case isFalse hrem =>
      by_cases hc : c.length > C - st.totalBytes
      · cases k <;>
          · dsimp only
            rw [if_pos hc]
            constructor
            · simp [List.length_append, hlen]
            · simp only [List.length_take]
              omega
      · cases k <;>
          · dsimp only
            rw [if_neg hc]
            constructor
            · simp [List.length_append, hlen]
            · omega

/-- If the shell flag is still clear after a data event, it was clear
before and the counter grew by the full chunk. -/
theorem shellDataStep_account (C : Nat) (st : ShellState) (n : Nat)
    (k : StreamKind) (c : Bytes)
    (h : (shellDataStep C st n k c).truncated = false) :
    st.truncated = false
    ∧ (shellDataStep C st n k c).totalBytes = st.totalBytes + c.length := by
  have hst : st.truncated = false := by
    by_contra hne
    rw [Bool.not_eq_false] at hne
    rw [shellDataStep_of_truncated C st n k c hne] at h
    simp at h
    exact absurd hne (by simp [h])
  refine ⟨hst, ?_⟩
  unfold shellDataStep at h ⊢
  dsimp only at h ⊢
  rw [if_neg (by simp [hst] : ¬({ st with lastActivity := n } : ShellState).truncated = true)] at h ⊢
  split at h
  case isTrue hrem => cases h
  case isFalse hrem =>
    rw [if_neg hrem]
    by_cases hc : c.length > C - st.totalBytes
    · exfalso
      cases k <;> simp [hc] at h
    · cases k <;>
        · dsimp only
          rw [if_neg hc]

/-- The shell loop keeps the combined output in sync with the byte counter
and below the ceiling. -/
theorem shellLoop_bound (T : Int) (C : Nat) :
    ∀ (ticks : List Tick) (st : ShellState),
    st.output.length = st.totalBytes → st.totalBytes ≤ C →
    (shellLoop T C st ticks).1.output.length = (shellLoop T C st ticks).1.totalBytes
    ∧ (shellLoop T C st ticks).1.totalBytes ≤ C := by
  intro ticks
  induction ticks with
  | nil =>
    intro st h1 h2
    simpa only [shellLoop] using ⟨h1, h2⟩
  | cons tick rest ih =>
    intro st h1 h2
    simp only [shellLoop]
    split
    · simpa using ⟨h1, h2⟩
    · rcases hr : tick.recv with e | _ | _
      · rcases e with ⟨k, c⟩ | k
        · refine ih _ ?_ ?_
          · exact (shellDataStep_bound C _ tick.now k c (by simpa using h1)
              (by simpa using h2)).1
          · exact (shellDataStep_bound C _ tick.now k c (by simpa using h1)
              (by simpa using h2)).2
        · cases k <;> exact ih _ (by simpa [shellEventStep] using h1)
            (by simpa [shellEventStep] using h2)
      · exact ih _ (by simpa using h1) (by simpa using h2)
      · exact ⟨by simpa using h1, by simpa using h2⟩

/-- Once the shell's combined output is truncated, the flag stays set and
the combined and per-stream texts are frozen. -/
theorem shellLoop_frozen (T : Int) (C : Nat) :
    ∀ (ticks : List Tick) (st : ShellState), st.truncated = true →
    (shellLoop T C st ticks).1.truncated = true
    ∧ (shellLoop T C st ticks).1.output = st.output
    ∧ (shellLoop T C st ticks).1.stdoutText = st.stdoutText
    ∧ (shellLoop T C st ticks).1.stderrText = st.stderrText := by
  intro ticks
  induction ticks with
  | nil =>
    intro st h
    exact ⟨h, rfl, rfl, rfl⟩
  | cons tick rest ih =>
    intro st h
    simp only [shellLoop]
    split
    · exact ⟨by simpa using h, by simp, by simp, by simp⟩
    · rcases hr : tick.recv with e | _ | _
      · rcases e with ⟨k, c⟩ | k
        · have hpre : (shellKillStep (shellTimeoutStep T (shellPollStep st
              tick) tick) tick).truncated = true := by simpa using h
          have hstep := shellDataStep_of_truncated C (shellKillStep
            (shellTimeoutStep T (shellPollStep st tick) tick) tick) tick.now
            k c hpre
          have h4 : (shellDataStep C (shellKillStep (shellTimeoutStep T
              (shellPollStep st tick) tick) tick) tick.now k c).truncated
              = true := by
            rw [hstep]
            simpa using h
          have hrec := ih (shellDataStep C (shellKillStep (shellTimeoutStep T
            (shellPollStep st tick) tick) tick) tick.now k c) h4
          have e1 : (shellLoop T C (shellDataStep C (shellKillStep
              (shellTimeoutStep T (shellPollStep st tick) tick) tick)
              tick.now k c) rest).1.output = st.output := by
            rw [hrec.2.1, hstep]
            simp
          have e2 : (shellLoop T C (shellDataStep C (shellKillStep
              (shellTimeoutStep T (shellPollStep st tick) tick) tick)
              tick.now k c) rest).1.stdoutText = st.stdoutText := by
            rw [hrec.2.2.1, hstep]
            simp
          have e3 : (shellLoop T C (shellDataStep C (shellKillStep
              (shellTimeoutStep T (shellPollStep st tick) tick) tick)
              tick.now k c) rest).1.stderrText = st.stderrText := by
            rw [hrec.2.2.2, hstep]
            simp
          exact ⟨hrec.1, e1, e2, e3⟩
        · cases k
          · have h4 : (shellEventStep C (shellKillStep (shellTimeoutStep T
                (shellPollStep st tick) tick) tick) tick.now
                (StreamEvent.done StreamKind.stdout)).truncated = true := by
              simpa [shellEventStep] using h
            have hrec := ih (shellEventStep C (shellKillStep (shellTimeoutStep T
              (shellPollStep st tick) tick) tick) tick.now
              (StreamEvent.done StreamKind.stdout)) h4
            have e1 : (shellLoop T C (shellEventStep C (shellKillStep
                (shellTimeoutStep T (shellPollStep st tick) tick) tick)
                tick.now (StreamEvent.done StreamKind.stdout)) rest).1.output
                = st.output := by
              rw [hrec.2.1]
              simp [shellEventStep]
            have e2 : (shellLoop T C (shellEventStep C (shellKillStep
                (shellTimeoutStep T (shellPollStep st tick) tick) tick)
                tick.now (StreamEvent.done StreamKind.stdout)) rest).1.stdoutText
                = st.stdoutText := by
              rw [hrec.2.2.1]
              simp [shellEventStep]
            have e3 : (shellLoop T C (shellEventStep C (shellKillStep
                (shellTimeoutStep T (shellPollStep st tick) tick) tick)
                tick.now (StreamEvent.done StreamKind.stdout)) rest).1.stderrText
                = st.stderrText := by
              rw [hrec.2.2.2]
              simp [shellEventStep]
            exact ⟨hrec.1, e1, e2, e3⟩
          · have h4 : (shellEventStep C (shellKillStep (shellTimeoutStep T
                (shellPollStep st tick) tick) tick) tick.now
                (StreamEvent.done StreamKind.stderr)).truncated = true := by
              simpa [shellEventStep] using h
            have hrec := ih (shellEventStep C (shellKillStep (shellTimeoutStep T
              (shellPollStep st tick) tick) tick) tick.now
              (StreamEvent.done StreamKind.stderr)) h4
            have e1 : (shellLoop T C (shellEventStep C (shellKillStep
                (shellTimeoutStep T (shellPollStep st tick) tick) tick)
                tick.now (StreamEvent.done StreamKind.stderr)) rest).1.output
                = st.output := by
              rw [hrec.2.1]
              simp [shellEventStep]
            have e2 : (shellLoop T C (shellEventStep C (shellKillStep
                (shellTimeoutStep T (shellPollStep st tick) tick) tick)
                tick.now (StreamEvent.done StreamKind.stderr)) rest).1.stdoutText
                = st.stdoutText := by
              rw [hrec.2.2.1]
              simp [shellEventStep]
            have e3 : (shellLoop T C (shellEventStep C (shellKillStep
                (shellTimeoutStep T (shellPollStep st tick) tick) tick)
                tick.now (StreamEvent.done StreamKind.stderr)) rest).1.stderrText
                = st.stderrText := by
              rw [hrec.2.2.2]
              simp [shellEventStep]
            exact ⟨hrec.1, e1, e2, e3⟩
      · have h4 : (shellKillStep (shellTimeoutStep T (shellPollStep st tick)
            tick) tick).truncated = true := by simpa using h
        have hrec := ih (shellKillStep (shellTimeoutStep T (shellPollStep st
          tick) tick) tick) h4
        have e1 : (shellLoop T C (shellKillStep (shellTimeoutStep T
            (shellPollStep st tick) tick) tick) rest).1.output = st.output := by
          rw [hrec.2.1]
          simp
        have e2 : (shellLoop T C (shellKillStep (shellTimeoutStep T
            (shellPollStep st tick) tick) tick) rest).1.stdoutText
            = st.stdoutText := by
          rw [hrec.2.2.1]
          simp
        have e3 : (shellLoop T C (shellKillStep (shellTimeoutStep T
            (shellPollStep st tick) tick) tick) rest).1.stderrText
            = st.stderrText := by
          rw [hrec.2.2.2]
          simp
        exact ⟨hrec.1, e1, e2, e3⟩
      · exact ⟨by simpa using h, by simp, by simp, by simp⟩

/-- The shell loop consumes a prefix of the trace, and while the flag stays
clear the byte counter equals exactly the bytes delivered in the processed
prefix. -/
theorem shellLoop_decomp (T : Int) (C : Nat) :
    ∀ (ticks : List Tick) (st : ShellState), ∃ pre,
    ticks = pre ++ (shellLoop T C st ticks).2
    ∧ ((shellLoop T C st ticks).1.truncated = false →
        st.truncated = false
        ∧ (shellLoop T C st ticks).1.totalBytes = st.totalBytes + dataBytes pre) := by
  intro ticks
  induction ticks with
  | nil =>
    intro st
    exact ⟨[], rfl, fun h => ⟨h, by simp [shellLoop]⟩⟩
  | cons tick rest ih =>
    intro st
    simp only [shellLoop]
    split
    · refine ⟨[], rfl, ?_⟩
      intro h
      exact ⟨by simpa using h, by simp⟩
    · rcases hr : tick.recv with e | _ | _
      · rcases e with ⟨k, c⟩ | k
        · obtain ⟨pre, hpre, hacc⟩ := ih (shellEventStep C (shellKillStep
            (shellTimeoutStep T (shellPollStep st tick) tick) tick) tick.now
            (StreamEvent.data k c))
          refine ⟨tick :: pre, ?_, ?_⟩
          · rw [List.cons_append, ← hpre]
          · intro h
            obtain ⟨h4, hlen⟩ := hacc h
            obtain ⟨h5, hstep⟩ := shellDataStep_account C _ tick.now k c h4
            refine ⟨by simpa using h5, ?_⟩
            rw [hlen]
            show (shellDataStep C _ tick.now k c).totalBytes + dataBytes pre = _
            rw [hstep]
            simp only [dataBytes_cons, tickBytes, hr]
            simp
            omega
        · obtain ⟨pre, hpre, hacc⟩ := ih (shellEventStep C (shellKillStep
            (shellTimeoutStep T (shellPollStep st tick) tick) tick) tick.now
            (StreamEvent.done k))
          refine ⟨tick :: pre, ?_, ?_⟩
          · rw [List.cons_append, ← hpre]
          · intro h
            obtain ⟨h4, hlen⟩ := hacc h
            refine ⟨by cases k <;> simpa [shellEventStep] using h4, ?_⟩
            rw [hlen]
            simp only [dataBytes_cons, tickBytes, hr]
            cases k <;> simp [shellEventStep]
      · obtain ⟨pre, hpre, hacc⟩ := ih (shellKillStep (shellTimeoutStep T
          (shellPollStep st tick) tick) tick)
        refine ⟨tick :: pre, ?_, ?_⟩
        · rw [List.cons_append, ← hpre]
        · intro h
          obtain ⟨h4, hlen⟩ := hacc h
          refine ⟨by simpa using h4, ?_⟩
          rw [hlen]
          simp only [dataBytes_cons, tickBytes, hr]
          simp
      · refine ⟨[tick], rfl, ?_⟩
        intro h
        refine ⟨by simpa using h, ?_⟩
        simp only [dataBytes_cons, tickBytes, hr]
        simp

/-- C3.  Truncation bookkeeping: in `run_command` each stream's captured
text never exceeds the ceiling, output past the ceiling sets the stream's
truncated flag, and once a stream is truncated the flag stays set and every
later chunk for it is dropped (its text is frozen); in `execute_shell` the
combined captured output obeys the same ceiling, flag and freezing rules,
and the returned `output` — with the inline marker appended — is at most the
ceiling plus the marker length. -/
theorem c3_truncation :
    (∀ (T : Int) (C : Nat) (f : Bool) (ticks : List Tick),
      (runLoop T C f initRunState ticks).1.stdoutText.length ≤ C
      ∧ (runLoop T C f initRunState ticks).1.stderrText.length ≤ C
      ∧ ∃ pre, ticks = pre ++ (runLoop T C f initRunState ticks).2
        ∧ (stdoutBytes pre > C →
            (runLoop T C f initRunState ticks).1.stdoutTruncated = true)
        ∧ (stderrBytes pre > C →
            (runLoop T C f initRunState ticks).1.stderrTruncated = true))
    ∧ (∀ (T : Int) (C : Nat) (f : Bool) (ticks : List Tick) (st : RunState),
      (st.stdoutTruncated = true →
        (runLoop T C f st ticks).1.stdoutTruncated = true
        ∧ (runLoop T C f st ticks).1.stdoutText = st.stdoutText)
      ∧ (st.stderrTruncated = true →
        (runLoop T C f st ticks).1.stderrTruncated = true
        ∧ (runLoop T C f st ticks).1.stderrText = st.stderrText))
    ∧ (∀ (T : Int) (C : Nat) (ticks : List Tick),
      (shellLoop T C initShellState ticks).1.output.length ≤ C
      ∧ ∃ pre, ticks = pre ++ (shellLoop T C initShellState ticks).2
        ∧ (dataBytes pre > C →
            (shellLoop T C initShellState ticks).1.truncated = true))
    ∧ (∀ (T : Int) (C : Nat) (ticks : List Tick) (st : ShellState),
      st.truncated = true →
      (shellLoop T C st ticks).1.truncated = true
      ∧ (shellLoop T C st ticks).1.output = st.output
      ∧ (shellLoop T C st ticks).1.stdoutText = st.stdoutText
      ∧ (shellLoop T C st ticks).1.stderrText = st.stderrText)
    ∧ (∀ (command cwd : String) (T : Int) (C : Nat) (trace : ShellTrace)
        (r : ShellResult),
      execute_shell command cwd T C trace = Except.ok r →
      r.truncated = true →
      r.output.length ≤ C + truncMarker.length) := by
  refine ⟨?_, ?_, ?_, ?_, ?_⟩
  · intro T C f ticks
    obtain ⟨pre, hpre, hout, herr⟩ := runLoop_decomp T C f ticks initRunState
    have hle := runLoop_len_le T C f ticks initRunState
      (by simp [initRunState]) (by simp [initRunState])
    refine ⟨hle.1, hle.2, pre, hpre, ?_, ?_⟩
    · intro hgt
      by_contra hnt
      rw [Bool.not_eq_true] at hnt
      obtain ⟨_, hlen⟩ := hout hnt
      rw [show initRunState.stdoutText.length = 0 from rfl, Nat.zero_add] at hlen
      have := hle.1
      omega
    · intro hgt
      by_contra hnt
      rw [Bool.not_eq_true] at hnt
      obtain ⟨_, hlen⟩ := herr hnt
      rw [show initRunState.stderrText.length = 0 from rfl, Nat.zero_add] at hlen
      have := hle.2
      omega
  · intro T C f ticks st
    exact ⟨runLoop_stdout_frozen T C f ticks st, runLoop_stderr_frozen T C f ticks st⟩
  · intro T C ticks
    obtain ⟨pre, hpre, hacc⟩ := shellLoop_decomp T C ticks initShellState
    have hb := shellLoop_bound T C ticks initShellState rfl (by simp [initShellState])
    refine ⟨by rw [hb.1]; exact hb.2, pre, hpre, ?_⟩
    intro hgt
    by_contra hnt
    rw [Bool.not_eq_true] at hnt
    obtain ⟨_, hlen⟩ := hacc hnt
    rw [show initShellState.totalBytes = 0 from rfl, Nat.zero_add] at hlen
    have := hb.2
    omega
  · intro T C ticks st h
    exact shellLoop_frozen T C ticks st h
  · intro command cwd T C trace r hok htr
    unfold execute_shell at hok
    cases hsp : trace.spawnError with
    | some err =>
      rw [hsp] at hok
      cases hok
    | none =>
      rw [hsp] at hok
      have hr := (Except.ok.injEq _ _).mp hok.symm
      have hbt : (shellLoop T C initShellState trace.ticks).1.truncated = true := by
        rw [hr] at htr
        exact htr
      have hb := shellLoop_bound T C trace.ticks initShellState rfl
        (by simp [initShellState])
      have houtlen : (shellLoop T C initShellState trace.ticks).1.output.length ≤ C := by
        rw [hb.1]
        exact hb.2
      have hm : truncMarker ≠ ([] : Bytes) := by decide
      have hout : r.output = (shellLoop T C initShellState trace.ticks).1.output
          ++ truncMarker := by
        rw [hr]
        simp [hbt, hm, List.append_eq_nil]
      rw [hout]
      simp only [List.length_append]
      omega

/-- C3 (witness): the bound and the flag on the concrete three-byte stdout
run against a two-byte ceiling. -/
theorem c3_truncation_witness :
    (runLoop 0 2 false initRunState truncatedTrace.ticks).1.stdoutText.length ≤ 2
    ∧ (runLoop 0 2 false initRunState truncatedTrace.ticks).1.stdoutTruncated = true := by
  refine ⟨(c3_truncation.1 0 2 false truncatedTrace.ticks).1, ?_⟩
  obtain ⟨pre, hpre, hflag, _⟩ := (c3_truncation.1 0 2 false truncatedTrace.ticks).2.2
  apply hflag
  have hleft : (runLoop 0 2 false initRunState truncatedTrace.ticks).2 = [] := by decide
  rw [hleft, List.append_nil] at hpre
  rw [← hpre]
  decide

/-! ## C6: the truncation marker -/

/-- C6 (counterexample).  A `run_command` execution whose stdout was
truncated returns the captured bytes with the truncation marker appearing
zero times — not exactly once — in the affected stream's text. -/
theorem c6_counterexample :
    (run_command ["prog"] [] none 0 2 none false truncatedTrace).map
      (fun r => (r.stdout_truncated, countOccurrences truncMarker r.stdout))
    = Except.ok (true, 0)
    ∧ (0 : Nat) ≠ 1 := by
  exact ⟨rfl, by decide⟩

/-- C6 (amended).  `run_command` appends no inline marker at all: the
returned stdout/stderr are exactly the captured bytes (or the `"(empty)"`
placeholder); truncation is reported only through the per-stream flags.
`execute_shell`, when truncation occurred, appends the marker once to the
combined output and once to the most-recently-active stream's text (stdout
when none was active), leaving the other stream's text unmarked. -/
theorem c6_marker_policy :
    (∀ (exec : List String) (env : List (String × String)) (cwd : Option String)
        (T : Int) (C : Nat) (input : Option String) (f : Bool)
        (trace : RunnerTrace) (r : RunResult),
      run_command exec env cwd T C input f trace = Except.ok r →
      (r.stdout = (runLoop T C f initRunState trace.ticks).1.stdoutText
        ∨ r.stdout = emptyPlaceholder)
      ∧ (r.stderr = (runLoop T C f initRunState trace.ticks).1.stderrText
        ∨ r.stderr = emptyPlaceholder))
    ∧ (∀ (command cwd : String) (T : Int) (C : Nat) (trace : ShellTrace)
        (r : ShellResult),
      execute_shell command cwd T C trace = Except.ok r →
      r.truncated = true →
      r.output = (shellLoop T C initShellState trace.ticks).1.output ++ truncMarker
      ∧ ((shellLoop T C initShellState trace.ticks).1.lastStream
            = some StreamKind.stderr →
          r.stderr = (shellLoop T C initShellState trace.ticks).1.stderrText
            ++ truncMarker
          ∧ (r.stdout = (shellLoop T C initShellState trace.ticks).1.stdoutText
            ∨ r.stdout = emptyPlaceholder))
      ∧ ((shellLoop T C initShellState trace.ticks).1.lastStream
            ≠ some StreamKind.stderr →
          r.stdout = (shellLoop T C initShellState trace.ticks).1.stdoutText
            ++ truncMarker
          ∧ (r.stderr = (shellLoop T C initShellState trace.ticks).1.stderrText
            ∨ r.stderr = emptyPlaceholder))) := by
  constructor
  · intro exec env cwd T C input f trace r hok
    unfold run_command at hok
    by_cases he : exec.isEmpty = true
    · rw [if_pos he] at hok
      cases hok
    · rw [if_neg he] at hok
      cases hsp : trace.setupError with
      | some err =>
        rw [hsp] at hok
        cases hok
      | none =>
        rw [hsp] at hok
        have hr := (Except.ok.injEq _ _).mp hok.symm
        constructor
        · by_cases hnil : (runLoop T C f initRunState trace.ticks).1.stdoutText = []
          · right
            rw [hr]
            simp [hnil]
          · left
            rw [hr]
            simp [hnil]
        · by_cases hnil : (runLoop T C f initRunState trace.ticks).1.stderrText = []
          · right
            rw [hr]
            simp [hnil]
          · left
            rw [hr]
            simp [hnil]
  · intro command cwd T C trace r hok htr
    unfold execute_shell at hok
    cases hsp : trace.spawnError with
    | some err =>
      rw [hsp] at hok
      cases hok
    | none =>
      rw [hsp] at hok
      have hr := (Except.ok.injEq _ _).mp hok.symm
      have hbt : (shellLoop T C initShellState trace.ticks).1.truncated = true := by
        rw [hr] at htr
        exact htr
      have hm : truncMarker ≠ ([] : Bytes) := by decide
      refine ⟨?_, ?_, ?_⟩
      · rw [hr]
        simp [hbt, hm, List.append_eq_nil]
      · intro hl
        constructor
        · rw [hr]
          simp [hbt, hl, hm, List.append_eq_nil]
        · by_cases hnil : (shellLoop T C initShellState trace.ticks).1.stdoutText = []
          · right
            rw [hr]
            simp [hbt, hl, hnil]
          · left
            rw [hr]
            simp [hbt, hl, hnil]
      · intro hl
        constructor
        · rw [hr]
          simp [hbt, hl, hm, List.append_eq_nil]
        · by_cases hnil : (shellLoop T C initShellState trace.ticks).1.stderrText = []
          · right
            rw [hr]
            simp [hbt, hl, hnil]
          · left
            rw [hr]
            simp [hbt, hl, hnil]

/-- C6 (witness): the marker policy applied to the concrete truncated
`run_command` execution. -/
theorem c6_marker_policy_witness :
    c6ResultW.stdout = (runLoop 0 2 false initRunState truncatedTrace.ticks).1.stdoutText
    ∨ c6ResultW.stdout = emptyPlaceholder :=
  (c6_marker_policy.1 ["prog"] [] none 0 2 none false truncatedTrace c6ResultW
    rfl).1

/-! ## C7: error fields on timeout and cancellation -/

/-- C7 (counterexample).  A `run_command` execution that terminates because
of the inactivity timeout (100 ms configured) ends with `timed_out = true`
but `error = None` — the error field is not populated with a message naming
the configured timeout. -/
theorem c7_counterexample :
    (run_command ["prog"] [] none 100 1000 none false timedOutTrace).map
      (fun r => (r.timed_out, r.error))
    = Except.ok (true, (none : Option String))
    ∧ (none : Option String)
      ≠ some ("Command was cancelled after " ++ toString (100 : Int)
          ++ "ms of inactivity.") := by
  exact ⟨rfl, by decide⟩

/-- C7 (amended).  Only `execute_shell` reports the timeout in the error
field: a timed-out shell execution carries the message naming the
configured timeout (and `"(none)"` otherwise).  In `run_command` the error
field is either the fixed cancellation marker `"cancelled"` or absent; a
timed-out, non-cancelled run carries no error message at all — only the
`timed_out` flag. -/
theorem c7_error_fields :
    (∀ (command cwd : String) (T : Int) (C : Nat) (trace : ShellTrace)
        (r : ShellResult),
      execute_shell command cwd T C trace = Except.ok r →
      (r.timed_out = true →
        r.error = "Command was cancelled after " ++ toString T
          ++ "ms of inactivity.")
      ∧ (r.timed_out = false → r.error = "(none)"))
    ∧ (∀ (exec : List String) (env : List (String × String))
        (cwd : Option String) (T : Int) (C : Nat) (input : Option String)
        (f : Bool) (trace : RunnerTrace) (r : RunResult),
      run_command exec env cwd T C input f trace = Except.ok r →
      (r.error = some "cancelled" ∨ r.error = none)
      ∧ ((runLoop T C f initRunState trace.ticks).1.cancelled = true →
          r.error = some "cancelled")
      ∧ ((runLoop T C f initRunState trace.ticks).1.cancelled = false →
          r.error = none)) := by
  constructor
  · intro command cwd T C trace r hok
    unfold execute_shell at hok
    cases hsp : trace.spawnError with
    | some err =>
      rw [hsp] at hok
      cases hok
    | none =>
      rw [hsp] at hok
      have hr := (Except.ok.injEq _ _).mp hok.symm
      constructor
      · intro ht
        rw [hr] at ht
        have ht' : (shellLoop T C initShellState trace.ticks).1.timedOut = true := ht
        rw [hr]
        simp [ht']
      · intro ht
        rw [hr] at ht
        have ht' : (shellLoop T C initShellState trace.ticks).1.timedOut = false := ht
        rw [hr]
        simp [ht', nonePlaceholder]
  · intro exec env cwd T C input f trace r hok
    unfold run_command at hok
    by_cases he : exec.isEmpty = true
    · rw [if_pos he] at hok
      cases hok
    · rw [if_neg he] at hok
      cases hsp : trace.setupError with
      | some err =>
        rw [hsp] at hok
        cases hok
      | none =>
        rw [hsp] at hok
        have hr := (Except.ok.injEq _ _).mp hok.symm
        refine ⟨?_, ?_, ?_⟩
        · by_cases hc : (runLoop T C f initRunState trace.ticks).1.cancelled = true
          · left
            rw [hr]
            simp [hc]
          · right
            rw [hr]
            simp [hc]
        · intro hc
          rw [hr]
          simp [hc]
        · intro hc
          rw [hr]
          simp [hc]

/-- C7 (witness): the error-field characterization applied to the concrete
timed-out shell execution with a 500 ms timeout; the message contains
"500". -/
theorem c7_error_fields_witness :
    c7ShellResultW.error
      = "Command was cancelled after " ++ toString (500 : Int)
        ++ "ms of inactivity." :=
  (c7_error_fields.1 "x" "/" 500 1000 timedOutShellTrace c7ShellResultW
    rfl).1 rfl

end McpServer
